import Mathlib

/-! # ethutils: redundant reader and transaction analyzer

A shallow embedding of `reader/reader.go` and `txanalyzer/analyzer.go`.

Conventions of the embedding:

* a Go `error` is an `Option String`: `none` is `nil`, `some m` is an error whose
  `Error()` text is `m`;
* a Go pointer that may be `nil` is an `Option`;
* the goroutines of a redundant read are replaced by their observable effect: the
  sequence of messages on the result channel, in the order they are received;
* a run-time panic (index out of range, failed type assertion) is `none` in a
  function returning `Option`.
-/

namespace EthUtils

/-! ## Data carried by the reader -/

/-- Go `error`: `none` is `nil`, `some m` has `Error()` equal to `m`. -/
abbrev GoError := Option String

/-- One octet. -/
abbrev Byte := Fin 256

/-- Transaction object `eu.Transaction`, reduced to the fields the two files read. -/
structure Transaction where
  Hash : String
  To : Option String
  From : String
  Data : List Byte
  Nonce : Nat
  Gas : Nat
deriving DecidableEq, Repr

/-- Event log `types.Log`: topic hashes and the data blob. -/
structure Log where
  Topics : List (List Byte)
  Data : List Byte
deriving DecidableEq, Repr

/-- Receipt `types.Receipt`, reduced to the fields the two files read. -/
structure Receipt where
  PostState : List Byte
  Status : Nat
  Logs : List Log
deriving DecidableEq, Repr

/-- Block header `types.Header`; only carried around by the reader. -/
structure Header where
  Number : Nat
deriving DecidableEq, Repr

/-- Internal transaction `eu.InternalTx`; the reader only ever builds an empty slice of them. -/
structure InternalTx where
  Hash : String
deriving DecidableEq, Repr

/-- Result `eu.TxInfo` of `TxInfoFromHash`. `InternalTxs = none` is the nil slice. -/
structure TxInfo where
  Status : String
  Tx : Option Transaction
  InternalTxs : Option (List InternalTx)
  Receipt : Option Receipt
deriving DecidableEq, Repr

/-! ## The fan-out and the drain loop shared by every redundant read -/

/-- What one backend node returns for one query: the node (by `NodeName()`), the value and
the error of its call. The list of these, in the order their messages are received from the
result channel, is the input of a redundant read. -/
structure NodeReply (α : Type) where
  NodeName : String
  value : α
  err : GoError

/-- The message a goroutine sends on `resCh` (`getBalanceResponse`, `getCodeResponse`, ...). -/
structure Response (α : Type) where
  Value : α
  Error : GoError

/-- What a redundant read hands back, together with the number of messages it has received
from `resCh` when it returns. -/
structure ReadResult (α : Type) where
  value : α
  err : GoError
  received : Nat

/-- Go `wrapError`: `nil` stays `nil`, otherwise `fmt.Errorf("%s: %s", name, e)`. -/
def wrapError (e : GoError) (name : String) : GoError :=
  match e with
  | none => none
  | some m => some (name ++ ": " ++ m)

/-- Loop of `errorInfo`: `estrs = append(estrs, fmt.Sprintf("%d. %s", i+1, e))`. -/
def errorInfo.estrs : Nat → List String → List String
  | _, [] => []
  | i, e :: rest => (toString (i + 1) ++ ". " ++ e) :: errorInfo.estrs (i + 1) rest

/-- Go `errorInfo`: the numbered messages joined by newlines. -/
def errorInfo (errs : List String) : String :=
  "\n".intercalate (errorInfo.estrs 0 errs)

/-- Body of the goroutine started for one node: call the node, wrap its error with the
node name, send the response. -/
def send {α : Type} (r : NodeReply α) : Response α :=
  { Value := r.value, Error := wrapError r.err r.NodeName }

/-- The receiving loop `for i := 0; i < len(self.nodes); i++ { result := <-resCh ... }`.
The list holds the messages not yet received, `errs` the errors collected so far and `i`
the loop counter; `zero` is the value returned next to the aggregated error. -/
def drain {α : Type} (zero : α) : List (Response α) → List String → Nat → ReadResult α
  | [], errs, i =>
    { value := zero
      err := some ("Couldn't read from any nodes: " ++ errorInfo errs)
      received := i }
  | result :: rest, errs, i =>
    match result.Error with
    | none => { value := result.Value, err := result.Error, received := i + 1 }
    | some e => drain zero rest (errs ++ [e]) (i + 1)

/-- The common shape of every redundant read: one goroutine per node sends its response,
then the drain loop runs over the responses in arrival order. The number N of configured
nodes, `len(self.nodes)`, is the length of `arrivals`. -/
def redundantRead {α : Type} (zero : α) (arrivals : List (NodeReply α)) : ReadResult α :=
  drain zero (arrivals.map send) [] 0

/-! ## The eleven redundant reads -/

/-- Go `EthReader.EstimateGas`. -/
def EstimateGas (arrivals : List (NodeReply Nat)) : ReadResult Nat :=
  redundantRead 0 arrivals

/-- Go `EthReader.GetCode`; the nil slice is the empty list. -/
def GetCode (arrivals : List (NodeReply (List Byte))) : ReadResult (List Byte) :=
  redundantRead [] arrivals

/-- Go `EthReader.GetBalance`; the balance is a `*big.Int`. -/
def GetBalance (arrivals : List (NodeReply (Option Int))) : ReadResult (Option Int) :=
  redundantRead none arrivals

/-- Go `EthReader.GetMinedNonce`. -/
def GetMinedNonce (arrivals : List (NodeReply Nat)) : ReadResult Nat :=
  redundantRead 0 arrivals

/-- Go `EthReader.GetPendingNonce`. -/
def GetPendingNonce (arrivals : List (NodeReply Nat)) : ReadResult Nat :=
  redundantRead 0 arrivals

/-- Go `EthReader.TransactionReceipt`. -/
def TransactionReceipt (arrivals : List (NodeReply (Option Receipt))) :
    ReadResult (Option Receipt) :=
  redundantRead none arrivals

/-- Go `EthReader.TransactionByHash`; the value is the pair `(tx, isPending)`. -/
def TransactionByHash (arrivals : List (NodeReply (Option Transaction × Bool))) :
    ReadResult (Option Transaction × Bool) :=
  redundantRead (none, false) arrivals

/-- Go `EthReader.ReadContractToBytes`. -/
def ReadContractToBytes (arrivals : List (NodeReply (List Byte))) : ReadResult (List Byte) :=
  redundantRead [] arrivals

/-- Go `EthReader.HeaderByNumber`. -/
def HeaderByNumber (arrivals : List (NodeReply (Option Header))) : ReadResult (Option Header) :=
  redundantRead none arrivals

/-- Go `EthReader.GetLogs`. -/
def GetLogs (arrivals : List (NodeReply (List Log))) : ReadResult (List Log) :=
  redundantRead [] arrivals

/-- Go `EthReader.CurrentBlock`. -/
def CurrentBlock (arrivals : List (NodeReply Nat)) : ReadResult Nat :=
  redundantRead 0 arrivals

/-- The redundant read operations of `EthReader`. -/
inductive ReadOp where
  | estimateGas | getCode | getBalance | getMinedNonce | getPendingNonce
  | transactionReceipt | transactionByHash | readContractToBytes | headerByNumber
  | getLogs | currentBlock
deriving DecidableEq, Repr

/-- Type of the value a redundant read returns next to its error. -/
@[reducible]
def ReadOp.Val : ReadOp → Type
  | .estimateGas => Nat
  | .getCode => List Byte
  | .getBalance => Option Int
  | .getMinedNonce => Nat
  | .getPendingNonce => Nat
  | .transactionReceipt => Option Receipt
  | .transactionByHash => Option Transaction × Bool
  | .readContractToBytes => List Byte
  | .headerByNumber => Option Header
  | .getLogs => List Log
  | .currentBlock => Nat

/-- Run the named operation on the replies of the nodes, given in arrival order. -/
def ReadOp.run : (op : ReadOp) → List (NodeReply op.Val) → ReadResult op.Val
  | .estimateGas, arrivals => EstimateGas arrivals
  | .getCode, arrivals => GetCode arrivals
  | .getBalance, arrivals => GetBalance arrivals
  | .getMinedNonce, arrivals => GetMinedNonce arrivals
  | .getPendingNonce, arrivals => GetPendingNonce arrivals
  | .transactionReceipt, arrivals => TransactionReceipt arrivals
  | .transactionByHash, arrivals => TransactionByHash arrivals
  | .readContractToBytes, arrivals => ReadContractToBytes arrivals
  | .headerByNumber, arrivals => HeaderByNumber arrivals
  | .getLogs, arrivals => GetLogs arrivals
  | .currentBlock, arrivals => CurrentBlock arrivals

/-- The value next to the aggregated error of the named operation. -/
def ReadOp.zero : (op : ReadOp) → op.Val
  | .estimateGas => (0 : Nat)
  | .getCode => ([] : List Byte)
  | .getBalance => (none : Option Int)
  | .getMinedNonce => (0 : Nat)
  | .getPendingNonce => (0 : Nat)
  | .transactionReceipt => (none : Option Receipt)
  | .transactionByHash => ((none, false) : Option Transaction × Bool)
  | .readContractToBytes => ([] : List Byte)
  | .headerByNumber => (none : Option Header)
  | .getLogs => ([] : List Log)
  | .currentBlock => (0 : Nat)

/-! ## Transaction status -/

/-- Go `len(common.Hash{})`: a hash has 32 bytes. -/
def HashLength : Nat := 32

/-- Go `EthReader.TxInfoFromHash`. The two arguments are the replies of the nodes, in arrival
order, to the `TransactionByHash` query and to the `TransactionReceipt` query; the second
query is issued only on the path that reaches it. -/
def TxInfoFromHash (txArrivals : List (NodeReply (Option Transaction × Bool)))
    (receiptArrivals : List (NodeReply (Option Receipt))) : TxInfo × GoError :=
  let r := TransactionByHash txArrivals
  let txObj := r.value.1
  let isPending := r.value.2
  match r.err with
  | some e => ({ Status := "error", Tx := none, InternalTxs := none, Receipt := none }, some e)
  | none =>
    match txObj with
    | none => ({ Status := "notfound", Tx := none, InternalTxs := none, Receipt := none }, none)
    | some tx =>
      if isPending then
        ({ Status := "pending", Tx := some tx, InternalTxs := none, Receipt := none }, none)
      else
        -- receipt, _ := self.TransactionReceipt(tx)
        match (TransactionReceipt receiptArrivals).value with
        | none =>
          ({ Status := "pending", Tx := some tx, InternalTxs := none, Receipt := none }, none)
        | some receipt =>
          if receipt.PostState.length = HashLength then
            ({ Status := "done", Tx := some tx, InternalTxs := some [],
               Receipt := some receipt }, none)
          else if receipt.Status = 1 then
            ({ Status := "done", Tx := some tx, InternalTxs := some [],
               Receipt := some receipt }, none)
          else
            ({ Status := "reverted", Tx := some tx, InternalTxs := some [],
               Receipt := some receipt }, none)

/-! ## Recommended gas price on the fee-market chain -/

/-- The two operations `RecommendedGasPriceEthereum` performs on `float64` values: the
comparison `x == 0` and the division `x / 10.0`, with the literal `0`. The code is embedded over any carrier
with these two operations, so nothing is assumed about floating-point arithmetic. -/
class GoFloat (F : Type) where
  /-- The literal `0`. -/
  zero : F
  /-- Go `x == 0`. -/
  isZero : F → Bool
  /-- Go `x / 10.0`. -/
  div10 : F → F

/-- Rational numbers as a carrier of gas prices. -/
instance : GoFloat ℚ where
  zero := 0
  isZero x := decide (x = 0)
  div10 x := x / 10

/-- Go `gsresponse`: the decoded answer of the gas station. -/
structure gsresponse (F : Type) where
  Average : F
  Fast : F
  Fastest : F
  SafeLow : F

/-- The cache fields of `EthReader`, guarded by `gpmu`. -/
structure GasCache (F : Type) where
  latestGasPrice : F
  gasPriceTimestamp : Int

/-- Outcome of the oracle request made inside the critical section: `http.Get` fails,
`ioutil.ReadAll` fails, `json.Unmarshal` fails, or the body decodes to a `gsresponse`. -/
inductive OracleOutcome (F : Type) where
  | getFailed (e : String)
  | readFailed (e : String)
  | unmarshalFailed (e : String)
  | decoded (prices : gsresponse F)

/-- Result of one call of `RecommendedGasPriceEthereum`: the cache after the call, the
returned price and error, and the number of `http.Get` requests issued by the call. -/
structure GasPriceCall (F : Type) where
  cache : GasCache F
  price : F
  err : GoError
  fetches : Nat

/-- Go `EthReader.RecommendedGasPriceEthereum`, run as one critical section (the mutex makes
calls atomic). `now` is the value of `time.Now().Unix()` in the staleness test, `stamp` its
value when the timestamp is stored, `oracle` what the gas station request yields if it is
made. Unix times are far from the `int64` bounds, so the subtraction is the one of the
integers. -/
def RecommendedGasPriceEthereum {F : Type} [GoFloat F] (self : GasCache F)
    (now stamp : Int) (oracle : OracleOutcome F) : GasPriceCall F :=
  if GoFloat.isZero self.latestGasPrice || decide (now - self.gasPriceTimestamp > 30) then
    match oracle with
    | .getFailed e => { cache := self, price := GoFloat.zero, err := some e, fetches := 1 }
    | .readFailed e => { cache := self, price := GoFloat.zero, err := some e, fetches := 1 }
    | .unmarshalFailed e => { cache := self, price := GoFloat.zero, err := some e, fetches := 1 }
    | .decoded prices =>
      let self1 : GasCache F :=
        { latestGasPrice := GoFloat.div10 prices.Fast, gasPriceTimestamp := stamp }
      { cache := self1, price := self1.latestGasPrice, err := none, fetches := 1 }
  else
    { cache := self, price := self.latestGasPrice, err := none, fetches := 0 }

/-- One later call: the clock readings and the oracle outcome it would meet. -/
structure GasPriceRequest (F : Type) where
  now : Int
  stamp : Int
  oracle : OracleOutcome F

/-- A sequence of calls of `RecommendedGasPriceEthereum`, one after the other, from the
cache `self`: the results of the calls in order. -/
def runGasPriceCalls {F : Type} [GoFloat F] :
    GasCache F → List (GasPriceRequest F) → List (GasPriceCall F)
  | _, [] => []
  | self, c :: rest =>
    let r := RecommendedGasPriceEthereum self c.now c.stamp c.oracle
    r :: runGasPriceCalls r.cache rest

/-! ## ABI types and unpacked values (go-ethereum `accounts/abi`) -/

/-- The ABI type `abi.Type`: the constructor is the tag `t.T`, a slice or array carries its
element type `*t.Elem`, sized types carry `t.Size`. -/
inductive AbiType where
  | IntTy (size : Nat)
  | UintTy (size : Nat)
  | BoolTy
  | StringTy
  | SliceTy (elem : AbiType)
  | ArrayTy (size : Nat) (elem : AbiType)
  | TupleTy
  | AddressTy
  | FixedBytesTy (size : Nat)
  | BytesTy
  | HashTy
  | FixedPointTy
  | FunctionTy

/-- A Go value held in an `interface{}`, by its dynamic type. -/
inductive Value where
  /-- Go `string`. -/
  | string (s : String)
  /-- Go `*big.Int` and the sized integers `int8` .. `uint64`. -/
  | int (n : Int)
  /-- Go `bool`. -/
  | bool (b : Bool)
  /-- Go `common.Address`. -/
  | address (a : List Byte)
  /-- Go `common.Hash`. -/
  | hash (h : List Byte)
  /-- Go `[]byte`. -/
  | bytes (b : List Byte)
  /-- Go `[N]byte`, with `N` the length of the list. -/
  | fixedBytes (b : List Byte)
  /-- Go slice or array of any other element type. -/
  | seq (elems : List Value)
  /-- Go struct, as unpacked for a tuple. -/
  | tuple (fields : List Value)

/-- The analyzer `TxAnalyzer`, as far as rendering uses it: the address database and the two
library functions the rendering calls whose output is not fixed by this repository. -/
structure TxAnalyzer where
  /-- Go `self.addrdb.GetName`. -/
  GetName : String → String
  /-- Go `common.Address.Hex` (checksummed hex encoding). -/
  AddressHex : List Byte → String
  /-- Go `fmt.Sprintf("%v", value)`. -/
  Sprintv : Value → String

/-! ## Rendering of parameters -/

/-- One hexadecimal digit, lower case. -/
def hexDigit (n : Nat) : Char :=
  if n < 10 then Char.ofNat (48 + n) else Char.ofNat (87 + n)

/-- Go `common.Bytes2Hex`: two lower-case hexadecimal digits for every byte. -/
def Bytes2Hex (b : List Byte) : String :=
  String.mk (b.flatMap fun x => [hexDigit (x.val / 16), hexDigit (x.val % 16)])

/-- Go `common.Hash.Hex`. -/
def HashHex (h : List Byte) : String :=
  "0x" ++ Bytes2Hex h

/-- Go `%x` of an integer: the hexadecimal digits of the magnitude, after a minus sign for a
negative number. -/
def fmtHex (n : Int) : String :=
  if n < 0 then "-" ++ String.mk (Nat.toDigits 16 n.natAbs)
  else String.mk (Nat.toDigits 16 n.natAbs)

/-- Go `reflect.Copy(dst, src)` on byte sequences: the first `min (len dst) (len src)`
elements of `dst` are overwritten. -/
def reflectCopy (dst src : List Byte) : List Byte :=
  src.take dst.length ++ dst.drop src.length

/-- Go `TxAnalyzer.nonArrayParamAsString`. The result is `none` where a type assertion or
`reflect.Copy` panics, and for an integer type given a value that is not an integer (a pair
that ABI unpacking does not produce). The fixed-bytes branch has no type assertion: it sizes
the word by `reflect.TypeOf(value).Size()` and copies what `reflect.Copy` accepts, a byte
array, a byte slice or a string (sizes of the slice and string headers as on a 64-bit
platform). -/
def TxAnalyzer.nonArrayParamAsString (self : TxAnalyzer) (t : AbiType) (value : Value) :
    Option String :=
  match t with
  | .StringTy =>
    match value with
    | .string s => some s
    | _ => none
  | .IntTy _ | .UintTy _ =>
    match value with
    | .int n => some (toString n ++ " (0x" ++ fmtHex n ++ ")")
    | _ => none
  | .BoolTy =>
    match value with
    | .bool b => some (if b then "true" else "false")
    | _ => none
  | .AddressTy =>
    match value with
    | .address a =>
      some (self.AddressHex a ++ " - (" ++ self.GetName (self.AddressHex a) ++ ")")
    | _ => none
  | .HashTy =>
    match value with
    | .hash h => some (HashHex h)
    | _ => none
  | .BytesTy =>
    match value with
    | .bytes b => some ("0x" ++ Bytes2Hex b)
    | _ => none
  | .FixedBytesTy _ =>
    match value with
    | .fixedBytes b =>
      -- reflect.TypeOf(value).Size() of a [N]byte is N
      let word : List Byte := List.replicate b.length 0
      let word := reflectCopy word b
      some ("0x" ++ Bytes2Hex word)
    | .address a =>
      -- common.Address is a byte array
      let word : List Byte := List.replicate a.length 0
      some ("0x" ++ Bytes2Hex (reflectCopy word a))
    | .hash h =>
      -- common.Hash is a byte array
      let word : List Byte := List.replicate h.length 0
      some ("0x" ++ Bytes2Hex (reflectCopy word h))
    | .bytes b =>
      -- the size of a slice header is 24
      let word : List Byte := List.replicate 24 0
      some ("0x" ++ Bytes2Hex (reflectCopy word b))
    | .string s =>
      -- the size of a string header is 16
      let word : List Byte := List.replicate 16 0
      some ("0x" ++ Bytes2Hex (reflectCopy word (s.toUTF8.toList.map fun x => Fin.ofNat x.toNat)))
    | _ => none
  | .FunctionTy =>
    match value with
    | .bytes b => some ("0x" ++ Bytes2Hex b)
    | _ => none
  | _ => some (self.Sprintv value)

/-- The loop of `paramAsString` over the elements of a slice or array:
`result += fmt.Sprintf("\n%d. %v", i, self.paramAsString(*t.Elem, element))`. -/
def paramAsString.loop (render : Value → Option String) :
    List Value → Nat → String → Option String
  | [], _, result => some result
  | v :: rest, i, result =>
    match render v with
    | none => none
    | some s => paramAsString.loop render rest (i + 1) (result ++ ("\n" ++ toString i ++ ". " ++ s))

/-- Elements of a value as `reflect.ValueOf(value)` indexes them: the elements of a slice
or array; a byte slice or byte array yields its bytes as `uint8` values. `none` where
`Len` panics or the value is not one ABI unpacking produces for a slice or array type. -/
def reflectElems : Value → Option (List Value)
  | .seq elems => some elems
  | .bytes b => some (b.map fun x => Value.int x.val)
  | .fixedBytes b => some (b.map fun x => Value.int x.val)
  | _ => none

/-- Go `TxAnalyzer.paramAsString`. -/
def TxAnalyzer.paramAsString (self : TxAnalyzer) : AbiType → Value → Option String
  | .SliceTy elem, value =>
    match reflectElems value with
    | some elems => paramAsString.loop (self.paramAsString elem) elems 0 ""
    | none => none
  | .ArrayTy _ elem, value =>
    match reflectElems value with
    | some elems => paramAsString.loop (self.paramAsString elem) elems 0 ""
    | none => none
  | t, value => self.nonArrayParamAsString t value

/-! ## The multisig recognizer -/

/-- Go `abi.Argument`. -/
structure Argument where
  Name : String
  Type_ : AbiType
  Indexed : Bool

/-- Go `abi.Method`, reduced to the fields the analyzer reads. -/
structure Method where
  Name : String
  Inputs : List Argument

/-- Go `expectedParams` of `isGnosisMultisig`. -/
def expectedParams : List String := ["destination", "value", "data"]

/-- The loop `for i, input := range method.Inputs` of `isGnosisMultisig`; `none` is the
panic of `expectedParams[i]` with `i` out of range. -/
def isGnosisMultisig.loop : List Argument → Nat → Option Bool
  | [], _ => some true
  | input :: rest, i =>
    match expectedParams[i]? with
    | none => none
    | some expected =>
      if input.Name != expected then some false
      else isGnosisMultisig.loop rest (i + 1)

/-- Go `isGnosisMultisig`. -/
def isGnosisMultisig (method : Method) (_params : List Value) : Option Bool :=
  if method.Name != "submitTransaction" then some false
  else isGnosisMultisig.loop method.Inputs 0

/-- An analyzer with an empty address database, used to evaluate the rendering on concrete
values: addresses are shown in plain hex and `%v` is not exercised. -/
def plainAnalyzer : TxAnalyzer :=
  { GetName := fun _ => ""
    AddressHex := fun a => "0x" ++ Bytes2Hex a
    Sprintv := fun _ => "" }

/-! ## Decoded results and the ABI library -/

/-- Go `ParamResult`: name, ABI type string and rendered value of one parameter. The result
types are declared outside the two files; their fields are those the code assigns. -/
structure ParamResult where
  Name : String
  Type_ : String
  Value : String
deriving DecidableEq, Repr

/-- Go `TopicResult`: name of an indexed input and the hex of its topic. -/
structure TopicResult where
  Name : String
  Value : String
deriving DecidableEq, Repr

/-- Go `LogResult`: decoded event log. -/
structure LogResult where
  Name : String
  Topics : List TopicResult
  Data : List ParamResult
deriving DecidableEq, Repr

/-- Go `AddressResult`: an address and its display name. -/
structure AddressResult where
  Address : String
  Name : String
deriving DecidableEq, Repr

/-- Go `GnosisResult`: the embedded call of a multisig submission. -/
structure GnosisResult where
  Contract : AddressResult
  Method : String
  Params : List ParamResult
deriving DecidableEq, Repr

/-- Go `TxResult`: decoded presentation of one transaction. `GnosisInit = none` is the nil
pointer. -/
structure TxResult where
  Hash : String
  Status : String
  From : AddressResult
  Value : String
  To : AddressResult
  Nonce : String
  GasPrice : String
  GasLimit : String
  TxType : String
  Contract : AddressResult
  Method : String
  Params : List ParamResult
  Logs : List LogResult
  GnosisInit : Option GnosisResult
  Error : String
deriving DecidableEq, Repr

/-- Go `abi.Event`, reduced to the fields the analyzer reads. -/
structure Event where
  Name : String
  Inputs : List Argument

/-- Go `abi.ABI`. The Go maps `Methods` and `Events` are given as lists, in the order in
which a `range` over the map visits the entries. -/
structure ABI where
  Methods : List Method
  Events : List Event

/-- The functions of go-ethereum the analyzer calls whose results are not fixed by this
repository: selector lookup, byte unpacking, event identifiers and type names. -/
structure AbiLibrary where
  /-- Go `abi.MethodById(data)`. -/
  MethodById : ABI → List Byte → Except String Method
  /-- Go `arguments.UnpackValues(data)`. -/
  UnpackValues : List Argument → List Byte → Except String (List Value)
  /-- Go `event.ID().Bytes()`. -/
  EventID : Event → List Byte
  /-- Go `t.String()` of an `abi.Type`. -/
  TypeString : AbiType → String
  /-- Go `fmt.Sprintf("%f", ethutils.BigToFloat(tx.Value(), 18))`. -/
  ValueString : Transaction → String
  /-- Go `fmt.Sprintf("%f", ethutils.BigToFloat(tx.GasPrice(), 9))`. -/
  GasPriceString : Transaction → String
  /-- Go `abi.MethodById(data)` on a nil `*abi.ABI`: the error it returns, or `none` where it
  dereferences the nil pointer. -/
  MethodByIdNil : List Byte → Option String

/-- Modelled from the spec: `SplitEventArguments` is declared outside the two files. The
declared inputs of an event are partitioned into the indexed ones and the non-indexed
ones, each in declaration order. -/
def SplitEventArguments (args : List Argument) : List Argument × List Argument :=
  (args.filter fun a => a.Indexed, args.filter fun a => !a.Indexed)

/-- Go `%#x` of a byte slice: "0x" and the hex digits, nothing for an empty slice. -/
def fmtSharpHex (b : List Byte) : String :=
  if b.isEmpty then "" else "0x" ++ Bytes2Hex b

/-- The loop of `findEventById` over the events in iteration order. -/
def findEventById.loop (lib : AbiLibrary) (topic : List Byte) : List Event → Option Event
  | [] => none
  | event :: rest =>
    if lib.EventID event = topic then some event
    else findEventById.loop lib topic rest

/-- Go `findEventById`. -/
def findEventById (lib : AbiLibrary) (a : ABI) (topic : List Byte) : Except String Event :=
  match findEventById.loop lib topic a.Events with
  | some event => .ok event
  | none => .error ("no event with id: " ++ fmtSharpHex topic)

/-- The loop that pairs each declared input with its unpacked value:
`params = append(params, ParamResult{input.Name, input.Type.String(),
self.paramAsString(input.Type, ps[i])})`. The result is `none` when `ps[i]` is out of range or
the rendering panics. -/
def paramResults (self : TxAnalyzer) (lib : AbiLibrary) (ps : List Value) :
    List Argument → Nat → List ParamResult → Option (List ParamResult)
  | [], _, params => some params
  | input :: rest, i, params =>
    match ps[i]? with
    | none => none
    | some v =>
      match self.paramAsString input.Type_ v with
      | none => none
      | some s =>
        paramResults self lib ps rest (i + 1)
          (params ++ [{ Name := input.Name, Type_ := lib.TypeString input.Type_, Value := s }])

/-- Go `TxAnalyzer.AnalyzeMethodCall`: method name, parameters and error; `none` is a
panic (`data[4:]` on fewer than four bytes, `ps[i]` out of range, a panic of the rendering). -/
def TxAnalyzer.AnalyzeMethodCall (self : TxAnalyzer) (lib : AbiLibrary) (abi : ABI)
    (data : List Byte) : Option (String × List ParamResult × GoError) :=
  match lib.MethodById abi data with
  | .error e => some ("", [], some e)
  | .ok m =>
    let method := m.Name
    if data.length < 4 then none
    else
      match lib.UnpackValues m.Inputs (data.drop 4) with
      | .error e => some (method, [], some e)
      | .ok ps =>
        match paramResults self lib ps m.Inputs 0 [] with
        | none => none
        | some params => some (method, params, none)

/-- The loop `for j, topic := range l.Topics[1:]` of `AnalyzeLog`; `none` is the panic of
`iArgs[j]` with `j` out of range. -/
def AnalyzeLog.topics (iArgs : List Argument) :
    List (List Byte) → Nat → List TopicResult → Option (List TopicResult)
  | [], _, topics => some topics
  | topic :: rest, j, topics =>
    match iArgs[j]? with
    | none => none
    | some arg =>
      AnalyzeLog.topics iArgs rest (j + 1)
        (topics ++ [{ Name := arg.Name, Value := HashHex topic }])

/-- Go `TxAnalyzer.AnalyzeLog`: the log result and the error; `none` is a panic
(`l.Topics[0]` on an empty topic list, `iArgs[j]` or `params[i]` out of range, a panic of the
rendering). -/
def TxAnalyzer.AnalyzeLog (self : TxAnalyzer) (lib : AbiLibrary) (abi : ABI) (l : Log) :
    Option (LogResult × GoError) :=
  let logResult : LogResult := { Name := "", Topics := [], Data := [] }
  match l.Topics with
  | [] => none
  | topic0 :: moreTopics =>
    match findEventById lib abi topic0 with
    | .error e => some (logResult, some e)
    | .ok event =>
      let logResult := { logResult with Name := event.Name }
      let iArgs := (SplitEventArguments event.Inputs).1
      let niArgs := (SplitEventArguments event.Inputs).2
      match AnalyzeLog.topics iArgs moreTopics 0 logResult.Topics with
      | none => none
      | some topics =>
        let logResult := { logResult with Topics := topics }
        match lib.UnpackValues niArgs l.Data with
        | .error e => some (logResult, some e)
        | .ok params =>
          match paramResults self lib params niArgs 0 logResult.Data with
          | none => none
          | some data => some ({ logResult with Data := data }, none)

/-! ## ABI retrieval from the block explorers -/

/-- The network and parsing functions behind the ABI retrieval: the HTTP request with the
reading of its body (the error of `ioutil.ReadAll` is overwritten by the code, so only the
body it yields matters), the decoding of the two response shapes into the ABI text, and the
parsing `abi.JSON` of that text. -/
structure Network where
  /-- Go `http.Get(url)` followed by `ioutil.ReadAll(resp.Body)`. -/
  httpGet : String → Except String String
  /-- Go `json.Unmarshal(body, &abiresp)` on an `abiresponse`, yielding `abiresp.Result`. -/
  unmarshalAbiresponse : String → Except String String
  /-- Go `json.Unmarshal(body, &abiresp)` on a `tomoabiresponse`, yielding
  `abiresp.Contract.ABICode`. -/
  unmarshalTomoabiresponse : String → Except String String
  /-- Go `abi.JSON(strings.NewReader(body))`. -/
  abiJSON : String → Except String ABI

/-- A value and an error, together with the URLs requested over the network to obtain
them, in order. -/
structure Fetched (α : Type) where
  value : α
  err : GoError
  requests : List String

/-- The reader `EthReader`, as far as ABI retrieval uses it: the chain tag and the network. -/
structure EthReader where
  chain : String
  net : Network

/-- The body shared by the four etherscan retrievals, which differ in the URL only. -/
def EthReader.getabi (self : EthReader) (url : String) : Fetched String :=
  match self.net.httpGet url with
  | .error e => { value := "", err := some e, requests := [url] }
  | .ok body =>
    match self.net.unmarshalAbiresponse body with
    | .error e => { value := "", err := some e, requests := [url] }
    | .ok result => { value := result, err := none, requests := [url] }

/-- The step shared by the five `Get...ABI` functions: parse the retrieved text. -/
def parseFetched (net : Network) (body : Fetched String) : Fetched (Option ABI) :=
  match body.err with
  | some e => { value := none, err := some e, requests := body.requests }
  | none =>
    match net.abiJSON body.value with
    | .error e => { value := none, err := some e, requests := body.requests }
    | .ok result => { value := some result, err := none, requests := body.requests }

/-- Go `EthReader.GetEthereumABIString`. -/
def EthReader.GetEthereumABIString (self : EthReader) (address : String) : Fetched String :=
  self.getabi ("https://api.etherscan.io/api?module=contract&action=getabi&address=" ++
    address ++ "&apikey=UBB257TI824FC7HUSPT66KZUMGBPRN3IWV")

/-- Go `EthReader.GetEthereumABI`. -/
def EthReader.GetEthereumABI (self : EthReader) (address : String) : Fetched (Option ABI) :=
  parseFetched self.net (self.GetEthereumABIString address)

/-- Go `EthReader.GetTomoABIString`. -/
def EthReader.GetTomoABIString (self : EthReader) (address : String) : Fetched String :=
  let url := "https://scan.tomochain.com/api/accounts/" ++ address
  match self.net.httpGet url with
  | .error e => { value := "", err := some e, requests := [url] }
  | .ok body =>
    match self.net.unmarshalTomoabiresponse body with
    | .error e => { value := "", err := some e, requests := [url] }
    | .ok code => { value := code, err := none, requests := [url] }

/-- Go `EthReader.GetTomoABI`. -/
def EthReader.GetTomoABI (self : EthReader) (address : String) : Fetched (Option ABI) :=
  parseFetched self.net (self.GetTomoABIString address)

/-- Go `EthReader.GetRinkebyABIString`. -/
def EthReader.GetRinkebyABIString (self : EthReader) (address : String) : Fetched String :=
  self.getabi ("https://api-rinkeby.etherscan.io/api?module=contract&action=getabi&address="
    ++ address ++ "&apikey=UBB257TI824FC7HUSPT66KZUMGBPRN3IWV")

/-- Go `EthReader.GetRinkebyABI`. -/
def EthReader.GetRinkebyABI (self : EthReader) (address : String) : Fetched (Option ABI) :=
  parseFetched self.net (self.GetRinkebyABIString address)

/-- Go `EthReader.GetKovanABIString`. -/
def EthReader.GetKovanABIString (self : EthReader) (address : String) : Fetched String :=
  self.getabi ("https://api-kovan.etherscan.io/api?module=contract&action=getabi&address="
    ++ address ++ "&apikey=UBB257TI824FC7HUSPT66KZUMGBPRN3IWV")

/-- Go `EthReader.GetKovanABI`. -/
def EthReader.GetKovanABI (self : EthReader) (address : String) : Fetched (Option ABI) :=
  parseFetched self.net (self.GetKovanABIString address)

/-- Go `EthReader.GetRopstenABIString`. -/
def EthReader.GetRopstenABIString (self : EthReader) (address : String) : Fetched String :=
  self.getabi ("https://api-ropsten.etherscan.io/api?module=contract&action=getabi&address="
    ++ address ++ "&apikey=UBB257TI824FC7HUSPT66KZUMGBPRN3IWV")

/-- Go `EthReader.GetRopstenABI`. -/
def EthReader.GetRopstenABI (self : EthReader) (address : String) : Fetched (Option ABI) :=
  parseFetched self.net (self.GetRopstenABIString address)

/-- Go `EthReader.GetABIString`. -/
def EthReader.GetABIString (self : EthReader) (address : String) : Fetched String :=
  if self.chain = "ethereum" then self.GetEthereumABIString address
  else if self.chain = "ropsten" then self.GetRopstenABIString address
  else if self.chain = "kovan" then self.GetKovanABIString address
  else if self.chain = "rinkeby" then self.GetRinkebyABIString address
  else if self.chain = "tomo" then self.GetTomoABIString address
  else
    { value := "", err := some ("'" ++ self.chain ++ "' chain is not supported"),
      requests := [] }

/-- Go `EthReader.GetABI`. -/
def EthReader.GetABI (self : EthReader) (address : String) : Fetched (Option ABI) :=
  if self.chain = "ethereum" then self.GetEthereumABI address
  else if self.chain = "ropsten" then self.GetRopstenABI address
  else if self.chain = "kovan" then self.GetKovanABI address
  else if self.chain = "rinkeby" then self.GetRinkebyABI address
  else if self.chain = "tomo" then self.GetTomoABI address
  else
    { value := none, err := some ("'" ++ self.chain ++ "' chain is not supported"),
      requests := [] }

/-! ## Transaction-level orchestration of the analyzer -/

/-- The Go zero value of `TxResult`, as in the literal `&TxResult{Error: ...}`. -/
def zeroTxResult : TxResult :=
  { Hash := "", Status := "", From := ⟨"", ""⟩, Value := "", To := ⟨"", ""⟩, Nonce := "",
    GasPrice := "", GasLimit := "", TxType := "", Contract := ⟨"", ""⟩, Method := "",
    Params := [], Logs := [], GnosisInit := none, Error := "" }

/-- Modelled from the spec: `NewTxResult` is declared outside the two files. A fresh result
has no method, parameters, logs or embedded call and an empty error text. -/
def NewTxResult : TxResult := zeroTxResult

/-- Go `TxAnalyzer.setBasicTxInfo`; `none` is the nil dereference of an absent transaction
or of an absent destination `txinfo.Tx.To()`. -/
def TxAnalyzer.setBasicTxInfo (self : TxAnalyzer) (lib : AbiLibrary) (txinfo : TxInfo)
    (result : TxResult) : Option TxResult :=
  match txinfo.Tx with
  | none => none
  | some tx =>
    let result := { result with From := { Address := tx.From, Name := self.GetName tx.From } }
    let result := { result with Value := lib.ValueString tx }
    match tx.To with
    | none => none
    | some dest =>
      let result := { result with To := { Address := dest, Name := self.GetName dest } }
      let result := { result with Nonce := toString tx.Nonce }
      let result := { result with GasPrice := lib.GasPriceString tx }
      some { result with GasLimit := toString tx.Gas }

/-- Go `TxAnalyzer.setGnosisMultisigInitData`; `none` is a panic: `params[0]` or
`params[2]` out of range, a failed type assertion, `data[4:]` on fewer than four bytes, or
a panic while pairing the inputs with their values. -/
def TxAnalyzer.setGnosisMultisigInitData (self : TxAnalyzer) (lib : AbiLibrary)
    (reader : EthReader) (_inputs : List Argument) (params : List Value) (result : TxResult) :
    Option TxResult :=
  match (params[0]? : Option Value) with
  | some (.address a) =>
    let contract := self.AddressHex a
    match result.GnosisInit with
    | none => none
    | some init =>
      let init := { init with
        Contract := { Address := contract, Name := self.GetName contract } }
      let result := { result with GnosisInit := some init }
      match (params[2]? : Option Value) with
      | some (.bytes data) =>
        let fetched := reader.GetABI contract
        match fetched.err, fetched.value with
        | some e, _ => some { result with Error := "Cannot get abi of the contract: " ++ e }
        | none, none => none
        | none, some abi =>
          match lib.MethodById abi data with
          | .error e =>
            some { result with Error := "Cannot get corresponding method from the ABI: " ++ e }
          | .ok method =>
            let init := { init with Method := method.Name }
            let result := { result with GnosisInit := some init }
            if data.length < 4 then none
            else
              match lib.UnpackValues method.Inputs (data.drop 4) with
              | .error e => some { result with Error := "Cannot parse params: " ++ e }
              | .ok ps =>
                match paramResults self lib ps method.Inputs 0 init.Params with
                | none => none
                | some params =>
                  some { result with GnosisInit := some { init with Params := params } }
      | _ => none
  | _ => none

/-- The loop `for _, l := range logs` of `analyzeContractTx`: the error of a log is appended
to `result.Error`, its result to `result.Logs`; `none` when `AnalyzeLog` panics. -/
def analyzeContractTx.logs (self : TxAnalyzer) (lib : AbiLibrary) (abi : ABI) :
    List Log → TxResult → Option TxResult
  | [], result => some result
  | l :: rest, result =>
    match self.AnalyzeLog lib abi l with
    | none => none
    | some (logResult, err) =>
      let result :=
        match err with
        | some e => { result with Error := result.Error ++ e }
        | none => result
      analyzeContractTx.logs self lib abi rest { result with Logs := result.Logs ++ [logResult] }

/-- Go `TxAnalyzer.analyzeContractTx`; `none` is a panic. -/
def TxAnalyzer.analyzeContractTx (self : TxAnalyzer) (lib : AbiLibrary) (reader : EthReader)
    (txinfo : TxInfo) (abi : ABI) (result : TxResult) : Option TxResult :=
  match txinfo.Tx with
  | none => none
  | some tx =>
    match tx.To with
    | none => none
    | some dest =>
      let result := { result with Contract := { result.Contract with Address := dest } }
      let result :=
        { result with Contract := { result.Contract with Name := self.GetName dest } }
      let data := tx.Data
      match self.AnalyzeMethodCall lib abi data with
      | none => none
      | some (_, _, some e) =>
        some { result with Error := "Cannot analyze the method call: " ++ e }
      | some (methodName, params, none) =>
        let result := { result with Method := methodName }
        let result := { result with Params := result.Params ++ params }
        match lib.MethodById abi data with
        | .error e =>
          some { result with Error := "Cannot get corresponding method from the ABI: " ++ e }
        | .ok m =>
          if data.length < 4 then none
          else
            match lib.UnpackValues m.Inputs (data.drop 4) with
            | .error e => some { result with Error := "Cannot parse params: " ++ e }
            | .ok ps =>
              match txinfo.Receipt with
              | none => none
              | some receipt =>
                match analyzeContractTx.logs self lib abi receipt.Logs result with
                | none => none
                | some result =>
                  match isGnosisMultisig m ps with
                  | none => none
                  | some false => some result
                  | some true =>
                    let result := { result with
                      GnosisInit := some { Contract := ⟨"", ""⟩, Method := "", Params := [] } }
                    self.setGnosisMultisigInitData lib reader m.Inputs ps result

/-- Go `TxAnalyzer.analyzeContractTx` when the ABI pointer is nil: the first call that uses
the pointer is `abi.MethodById(data)` inside `AnalyzeMethodCall`, which either returns an
error, reported in `result.Error`, or dereferences the nil pointer; `none` is a panic. -/
def TxAnalyzer.analyzeContractTxNil (self : TxAnalyzer) (lib : AbiLibrary) (txinfo : TxInfo)
    (result : TxResult) : Option TxResult :=
  match txinfo.Tx with
  | none => none
  | some tx =>
    match tx.To with
    | none => none
    | some dest =>
      let result := { result with Contract := { result.Contract with Address := dest } }
      let result :=
        { result with Contract := { result.Contract with Name := self.GetName dest } }
      match lib.MethodByIdNil tx.Data with
      | none => none
      | some e => some { result with Error := "Cannot analyze the method call: " ++ e }

/-- Go `TxAnalyzer.AnalyzeOffline`; the ABI pointer may be nil; `none` is a panic. -/
def TxAnalyzer.AnalyzeOffline (self : TxAnalyzer) (lib : AbiLibrary) (reader : EthReader)
    (txinfo : TxInfo) (abi : Option ABI) (isContract : Bool) : Option TxResult :=
  let result := NewTxResult
  match txinfo.Tx with
  | none => none
  | some tx =>
    let result := { result with Hash := tx.Hash }
    let result := { result with Status := txinfo.Status }
    if txinfo.Status = "done" ∨ txinfo.Status = "reverted" then
      match self.setBasicTxInfo lib txinfo result with
      | none => none
      | some result =>
        if !isContract then
          some { result with TxType := "normal" }
        else
          let result := { result with TxType := "contract call" }
          match abi with
          | none => self.analyzeContractTxNil lib txinfo result
          | some abi => self.analyzeContractTx lib reader txinfo abi result
    else
      some result

/-- Go `TxAnalyzer.Analyze`. The arguments after the reader are the replies of the nodes, in
arrival order, to the three redundant reads the call may issue; `none` is a panic. -/
def TxAnalyzer.Analyze (self : TxAnalyzer) (lib : AbiLibrary) (reader : EthReader)
    (txArrivals : List (NodeReply (Option Transaction × Bool)))
    (receiptArrivals : List (NodeReply (Option Receipt)))
    (codeArrivals : List (NodeReply (List Byte))) : Option TxResult :=
  let txinfo := (TxInfoFromHash txArrivals receiptArrivals).1
  match (TxInfoFromHash txArrivals receiptArrivals).2 with
  | some e => some { zeroTxResult with Error := "getting tx info failed: " ++ e }
  | none =>
    match txinfo.Tx with
    | none => none
    | some tx =>
      match tx.To with
      | none => none
      | some dest =>
        let code := GetCode codeArrivals
        match code.err with
        | some e => some { zeroTxResult with Error := "checking tx type failed: " ++ e }
        | none =>
          let isContract := decide (code.value.length > 0)
          if isContract then
            let fetched := reader.GetABI dest
            match fetched.err with
            | some e =>
              some { zeroTxResult with Error := "Cannot get abi of the contract: " ++ e }
            | none => self.AnalyzeOffline lib reader txinfo fetched.value true
          else
            self.AnalyzeOffline lib reader txinfo none false

/-! ## Concrete library and network for evaluating the analyzer -/

/-- A value for an argument of the sample library: addresses and byte strings are cut from
the data, the other types get a fixed value. As in go-ethereum, a fixed-bytes type and the
function type unpack to a byte array (`[N]byte`, `[24]byte`), not to a byte slice. -/
def sampleValue (data : List Byte) (arg : Argument) : Value :=
  match arg.Type_ with
  | .AddressTy => .address (data.take 20)
  | .BytesTy => .bytes (data.drop 20)
  | .StringTy => .string "text"
  | .BoolTy => .bool true
  | .IntTy _ => .int (-1)
  | .UintTy _ => .int data.length
  | .HashTy => .hash (data.take 32)
  | .FixedBytesTy n => .fixedBytes (data.take n)
  | .FunctionTy => .fixedBytes (data.take 24 ++ List.replicate (24 - data.length) 0)
  | .SliceTy _ => .seq []
  | .ArrayTy _ _ => .seq []
  | _ => .tuple []

/-- A library instance used to evaluate the analyzer on concrete inputs. It stands in for
go-ethereum with table lookups instead of Keccak hashes: the selector of a method and the
identifier of an event are the first bytes of the character codes of the name; unpacking
fails on empty data for a non-empty argument list and otherwise yields one value for each
argument. -/
def sampleLibrary : AbiLibrary :=
  { MethodById := fun abi data =>
      if data.length < 4 then .error "data too short for abi method lookup"
      else
        match abi.Methods.find?
          (fun m => decide ((m.Name.toList.take 4).map (fun c => c.toNat % 256) =
            (data.take 4).map (fun x => x.val))) with
        | some m => .ok m
        | none => .error ("no method with id: " ++ fmtSharpHex (data.take 4))
    UnpackValues := fun args data =>
      if data.isEmpty && !args.isEmpty then
        .error "abi: attempting to unmarshall an empty string while arguments are expected"
      else .ok (args.map (sampleValue data))
    EventID := fun e => (e.Name.toList.take 32).map fun c => Fin.ofNat c.toNat
    TypeString := fun t =>
      match t with
      | .AddressTy => "address"
      | .BytesTy => "bytes"
      | .StringTy => "string"
      | .BoolTy => "bool"
      | .UintTy n => "uint" ++ toString n
      | .IntTy n => "int" ++ toString n
      | .FixedBytesTy n => "bytes" ++ toString n
      | _ => "other"
    ValueString := fun _ => "0.000000"
    GasPriceString := fun _ => "1.000000"
    MethodByIdNil := fun data =>
      if data.length < 4 then some "data too short for abi method lookup" else none }

/-- A network on which every request fails. -/
def offlineNetwork : Network :=
  { httpGet := fun _ => .error "dial tcp: no route to host"
    unmarshalAbiresponse := fun _ => .error "unexpected end of JSON input"
    unmarshalTomoabiresponse := fun _ => .error "unexpected end of JSON input"
    abiJSON := fun _ => .error "unexpected end of JSON input" }

/-- The method `submitTransaction(address destination, uint256 value, bytes data)` of a
multisig wallet. -/
def submitTransactionMethod : Method :=
  { Name := "submitTransaction"
    Inputs := [⟨"destination", .AddressTy, false⟩, ⟨"value", .UintTy 256, false⟩,
      ⟨"data", .BytesTy, false⟩] }

/-- The event `Transfer(address indexed from, address indexed to, uint256 value)`. -/
def transferEvent : Event :=
  { Name := "Transfer"
    Inputs := [⟨"from", .AddressTy, true⟩, ⟨"to", .AddressTy, true⟩,
      ⟨"value", .UintTy 256, false⟩] }

/-- An ABI with the methods `submitTransaction` and `ping()` and the event `Transfer`. -/
def walletABI : ABI :=
  { Methods := [submitTransactionMethod, ⟨"ping", []⟩], Events := [transferEvent] }

/-- Call data of `submitTransaction` for the sample library: the selector, twenty bytes of
destination and five bytes of payload. -/
def submitCallData : List Byte :=
  [115, 117, 98, 109] ++ List.replicate 20 7 ++ [1, 2, 3, 4, 5]

/-- Call data of `ping()` for the sample library. -/
def pingCallData : List Byte := [112, 105, 110, 103]

/-- The identifier of `Transfer` in the sample library. -/
def transferID : List Byte := [84, 114, 97, 110, 115, 102, 101, 114]

/-- An ABI whose only method is `submitTransaction()` without inputs. -/
def bareSubmitABI : ABI :=
  { Methods := [⟨"submitTransaction", []⟩], Events := [] }

/-- A mined transaction calling `submitTransaction` on a wallet. -/
def walletTx : Transaction :=
  { Hash := "0xaa", To := some "0xwallet", From := "0xowner", Data := submitCallData,
    Nonce := 3, Gas := 90000 }

/-- A mined transaction calling `ping()` on the wallet. -/
def pingTx : Transaction :=
  { Hash := "0xbb", To := some "0xwallet", From := "0xowner", Data := pingCallData,
    Nonce := 4, Gas := 30000 }

/-- A contract creation: the transaction has no destination. -/
def creationTx : Transaction :=
  { Hash := "0xcc", To := none, From := "0xowner", Data := [96, 128], Nonce := 5,
    Gas := 500000 }

/-- A log whose first topic is the identifier of no event of `walletABI`. -/
def unknownLog : Log := { Topics := [[1, 2, 3]], Data := [] }

/-- A reader for the main chain on a network where every request fails. -/
def offlineReader : EthReader := { chain := "ethereum", net := offlineNetwork }

/-- An ABI whose only method is `setCallback(function cb)`. -/
def callbackABI : ABI :=
  { Methods := [⟨"setCallback", [⟨"cb", .FunctionTy, false⟩]⟩], Events := [] }

/-- Call data of `setCallback` for the sample library: the selector and one 32-byte word. -/
def setCallbackCallData : List Byte :=
  [115, 101, 116, 67] ++ List.replicate 24 5 ++ List.replicate 8 0

/-- A second declaration of the `Transfer` event, under the name `Transfer0` and with other
input names. -/
def transfer0Event : Event :=
  { Name := "Transfer0"
    Inputs := [⟨"src", .AddressTy, true⟩, ⟨"dst", .AddressTy, true⟩,
      ⟨"wad", .UintTy 256, false⟩] }

/-- An ABI in which the range over the events meets `Transfer0` before `Transfer`. -/
def duplicateABI : ABI :=
  { Methods := [], Events := [transfer0Event, transferEvent] }

/-- The sample library with event identifiers taken from the first eight characters of the
name, so that `Transfer` and `Transfer0` have the same identifier, as two declarations of one
event signature have. -/
def rawNameLibrary : AbiLibrary :=
  { sampleLibrary with
    EventID := fun e => (e.Name.toList.take 8).map fun c => Fin.ofNat c.toNat }

/-! ## Lemmas on the drain loop -/

theorem ReadOp.run_eq (op : ReadOp) (arrivals : List (NodeReply op.Val)) :
    op.run arrivals = redundantRead op.zero arrivals := by
  cases op <;> rfl

theorem wrapError_eq_none (e : GoError) (name : String) :
    wrapError e name = none ↔ e = none := by
  cases e <;> simp [wrapError]

theorem send_Error_eq_none {α : Type} (r : NodeReply α) :
    (send r).Error = none ↔ r.err = none := by
  simp [send, wrapError_eq_none]

/-- A list with an element satisfying `p` splits at the first such element. -/
theorem exists_first_split {β : Type} (p : β → Prop) :
    ∀ l : List β, (∃ x ∈ l, p x) →
      ∃ pre r post, l = pre ++ r :: post ∧ (∀ x ∈ pre, ¬ p x) ∧ p r := by
  intro l
  induction l with
  | nil => rintro ⟨x, hx, _⟩; cases hx
  | cons a tl ih =>
    rintro ⟨x, hx, hpx⟩
    by_cases ha : p a
    · exact ⟨[], a, tl, rfl, by simp, ha⟩
    · have hx2 : x ∈ tl := by
        rcases List.mem_cons.mp hx with h | h
        · subst h; exact absurd hpx ha
        · exact h
      obtain ⟨pre, r, post, hl, hpre, hr⟩ := ih ⟨x, hx2, hpx⟩
      refine ⟨a :: pre, r, post, by simp [hl], ?_, hr⟩
      intro y hy
      rcases List.mem_cons.mp hy with h | h
      · subst h; exact ha
      · exact hpre y h

/-- The drain loop stops at the first response without error. -/
theorem drain_first_success {α : Type} (zero : α) (r : Response α) (post : List (Response α))
    (hr : r.Error = none) :
    ∀ (pre : List (Response α)) (errs : List String) (i : Nat),
      (∀ x ∈ pre, x.Error ≠ none) →
      drain zero (pre ++ r :: post) errs i =
        { value := r.Value, err := none, received := i + pre.length + 1 } := by
  intro pre
  induction pre with
  | nil => intro errs i _; simp [drain, hr]
  | cons x tl ih =>
    intro errs i hpre
    have hx : x.Error ≠ none := hpre x (by simp)
    obtain ⟨e, he⟩ := Option.ne_none_iff_exists'.mp hx
    have htl : ∀ y ∈ tl, y.Error ≠ none := fun y hy => hpre y (by simp [hy])
    rw [List.cons_append, drain]
    simp only [he]
    rw [ih (errs ++ [e]) (i + 1) htl]
    simp only [List.length_cons, ReadResult.mk.injEq, true_and]
    omega

/-- When every response carries an error, the drain loop receives all of them and aggregates
their messages in order. -/
theorem drain_all_fail {α : Type} (zero : α) :
    ∀ (rs : List (Response α)) (errs : List String) (i : Nat),
      (∀ x ∈ rs, x.Error ≠ none) →
      drain zero rs errs i =
        { value := zero
          err := some ("Couldn't read from any nodes: " ++
            errorInfo (errs ++ rs.map fun x => x.Error.getD ""))
          received := i + rs.length } := by
  intro rs
  induction rs with
  | nil => intro errs i _; simp [drain]
  | cons x tl ih =>
    intro errs i hall
    have hx : x.Error ≠ none := hall x (by simp)
    obtain ⟨e, he⟩ := Option.ne_none_iff_exists'.mp hx
    have htl : ∀ y ∈ tl, y.Error ≠ none := fun y hy => hall y (by simp [hy])
    rw [drain]
    simp only [he]
    rw [ih (errs ++ [e]) (i + 1) htl]
    simp only [List.length_cons, List.map_cons, he, Option.getD_some, List.append_assoc,
      List.singleton_append, ReadResult.mk.injEq, true_and]
    omega

theorem estrs_length : ∀ (l : List String) (k : Nat), (errorInfo.estrs k l).length = l.length := by
  intro l
  induction l with
  | nil => intro k; simp [errorInfo.estrs]
  | cons e tl ih => intro k; simp [errorInfo.estrs, ih]

theorem estrs_getElem? : ∀ (l : List String) (k i : Nat),
    (errorInfo.estrs k l)[i]? = (l[i]?).map fun e => toString (k + i + 1) ++ ". " ++ e := by
  intro l
  induction l with
  | nil => intro k i; simp [errorInfo.estrs]
  | cons e tl ih =>
    intro k i
    cases i with
    | zero => simp [errorInfo.estrs]
    | succ j =>
      simp only [errorInfo.estrs, List.getElem?_cons_succ, ih]
      have : k + 1 + j + 1 = k + (j + 1) + 1 := by omega
      rw [this]

/-- A redundant read returns the reply of the first node, in arrival order, whose call
succeeded, after receiving exactly the responses up to it. -/
theorem redundantRead_first_success {α : Type} (zero : α) (pre post : List (NodeReply α))
    (r : NodeReply α) (hpre : ∀ x ∈ pre, x.err ≠ none) (hr : r.err = none) :
    redundantRead zero (pre ++ r :: post) =
      { value := r.value, err := none, received := pre.length + 1 } := by
  have h := drain_first_success zero (send r) (post.map send) ((send_Error_eq_none r).mpr hr)
    (pre.map send) [] 0
    (by
      intro x hx
      obtain ⟨y, hy, rfl⟩ := List.mem_map.mp hx
      exact fun hc => hpre y hy ((send_Error_eq_none y).mp hc))
  simp only [redundantRead, List.map_append, List.map_cons]
  rw [h]
  simp [send]

/-- A redundant read whose nodes all fail receives every response and returns the
aggregated error. -/
theorem redundantRead_all_fail {α : Type} (zero : α) (arrivals : List (NodeReply α))
    (hall : ∀ x ∈ arrivals, x.err ≠ none) :
    redundantRead zero arrivals =
      { value := zero
        err := some ("Couldn't read from any nodes: " ++
          errorInfo (arrivals.map fun x => (wrapError x.err x.NodeName).getD ""))
        received := arrivals.length } := by
  have h := drain_all_fail zero (arrivals.map send) [] 0
    (by
      intro x hx
      obtain ⟨y, hy, rfl⟩ := List.mem_map.mp hx
      exact fun hc => hall y hy ((send_Error_eq_none y).mp hc))
  simp only [redundantRead]
  rw [h]
  simp [send, Function.comp_def]

/-- Either every reply of a list is a failure or the list splits at its first success. -/
theorem arrivals_cases {α : Type} (arrivals : List (NodeReply α)) :
    (∀ x ∈ arrivals, x.err ≠ none) ∨
    ∃ pre r post, arrivals = pre ++ r :: post ∧ (∀ x ∈ pre, x.err ≠ none) ∧ r.err = none := by
  by_cases h : ∃ x ∈ arrivals, x.err = none
  · exact Or.inr (exists_first_split (fun x : NodeReply α => x.err = none) arrivals h)
  · left
    intro x hx hc
    exact h ⟨x, hx, hc⟩

/-! ## Redundant reads: claims C1 to C3 -/

/-- Claim C1. For each of the eleven redundant reads and every arrival order of the replies:
if some node succeeded, the read returns a nil error and the value of the earliest-received
successful reply, the whole value of that single node. -/
theorem C1_first_success_wins (op : ReadOp) (arrivals : List (NodeReply op.Val))
    (h : ∃ x ∈ arrivals, x.err = none) :
    ∃ pre r post, arrivals = pre ++ r :: post ∧ (∀ x ∈ pre, x.err ≠ none) ∧ r.err = none ∧
      (op.run arrivals).err = none ∧ (op.run arrivals).value = r.value := by
  obtain ⟨pre, r, post, hl, hpre, hr⟩ :=
    exists_first_split (fun x : NodeReply op.Val => x.err = none) arrivals h
  refine ⟨pre, r, post, hl, hpre, hr, ?_, ?_⟩
  · rw [ReadOp.run_eq, hl, redundantRead_first_success op.zero pre post r hpre hr]
  · rw [ReadOp.run_eq, hl, redundantRead_first_success op.zero pre post r hpre hr]

/-- Witness of C1: three nodes, the first fails, the second and third succeed with different
balances; `GetBalance` returns the balance of the second. -/
theorem C1_first_success_wins_witness :
    ∃ pre r post,
      ([⟨"a", some 1, some "down"⟩, ⟨"b", some 5, none⟩, ⟨"c", some 6, none⟩] :
        List (NodeReply (Option Int))) = pre ++ r :: post ∧
      (∀ x ∈ pre, x.err ≠ none) ∧ r.err = none ∧
      (GetBalance [⟨"a", some 1, some "down"⟩, ⟨"b", some 5, none⟩, ⟨"c", some 6, none⟩]).err
        = none ∧
      (GetBalance [⟨"a", some 1, some "down"⟩, ⟨"b", some 5, none⟩, ⟨"c", some 6, none⟩]).value
        = r.value :=
  C1_first_success_wins .getBalance
    [⟨"a", some 1, some "down"⟩, ⟨"b", some 5, none⟩, ⟨"c", some 6, none⟩]
    ⟨⟨"b", some 5, none⟩, by simp, rfl⟩

/-- Claim C2. For each redundant read over N nodes: it fails if and only if all N calls fail,
and then the error text is "Couldn't read from any nodes: " followed by N entries joined by
newlines, the i-th entry (from 1, in arrival order) being "i. name: message" of the i-th
received reply. -/
theorem C2_aggregated_error (op : ReadOp) (arrivals : List (NodeReply op.Val)) :
    ((op.run arrivals).err ≠ none ↔ ∀ x ∈ arrivals, x.err ≠ none) ∧
    ((∀ x ∈ arrivals, x.err ≠ none) →
      ∃ entries : List String,
        entries.length = arrivals.length ∧
        (∀ i r, arrivals[i]? = some r →
          ∃ m, r.err = some m ∧
            entries[i]? = some (toString (i + 1) ++ ". " ++ (r.NodeName ++ ": " ++ m))) ∧
        (op.run arrivals).err =
          some ("Couldn't read from any nodes: " ++ "\n".intercalate entries)) := by
  have hfail : (∀ x ∈ arrivals, x.err ≠ none) →
      ∃ entries : List String,
        entries.length = arrivals.length ∧
        (∀ i r, arrivals[i]? = some r →
          ∃ m, r.err = some m ∧
            entries[i]? = some (toString (i + 1) ++ ". " ++ (r.NodeName ++ ": " ++ m))) ∧
        (op.run arrivals).err =
          some ("Couldn't read from any nodes: " ++ "\n".intercalate entries) := by
    intro hall
    refine ⟨errorInfo.estrs 0 (arrivals.map fun x => (wrapError x.err x.NodeName).getD ""),
      ?_, ?_, ?_⟩
    · simp [estrs_length]
    · intro i r hi
      have hmem : r ∈ arrivals := List.getElem?_mem hi
      obtain ⟨m, hm⟩ := Option.ne_none_iff_exists'.mp (hall r hmem)
      refine ⟨m, hm, ?_⟩
      rw [estrs_getElem?, List.getElem?_map, hi]
      simp [hm, wrapError]
    · rw [ReadOp.run_eq, redundantRead_all_fail op.zero arrivals hall]
      rfl
  refine ⟨?_, hfail⟩
  constructor
  · intro herr
    rcases arrivals_cases arrivals with hall | ⟨pre, r, post, hl, hpre, hr⟩
    · exact hall
    · exfalso
      apply herr
      rw [ReadOp.run_eq, hl, redundantRead_first_success op.zero pre post r hpre hr]
  · intro hall
    obtain ⟨entries, _, _, he⟩ := hfail hall
    rw [he]
    simp

/-- Witness of C2: two failing nodes give the two-entry message. -/
theorem C2_aggregated_error_witness :
    (∀ x ∈ ([⟨"a", 0, some "timeout"⟩, ⟨"b", 7, some "refused"⟩] : List (NodeReply Nat)),
      x.err ≠ none) ∧
    (GetMinedNonce [⟨"a", 0, some "timeout"⟩, ⟨"b", 7, some "refused"⟩]).err =
      some "Couldn't read from any nodes: 1. a: timeout\n2. b: refused" ∧
    ∃ entries : List String,
      entries.length = 2 ∧
      (∀ i r, ([⟨"a", 0, some "timeout"⟩, ⟨"b", 7, some "refused"⟩] :
          List (NodeReply Nat))[i]? = some r →
        ∃ m, r.err = some m ∧
          entries[i]? = some (toString (i + 1) ++ ". " ++ (r.NodeName ++ ": " ++ m))) ∧
      (GetMinedNonce [⟨"a", 0, some "timeout"⟩, ⟨"b", 7, some "refused"⟩]).err =
        some ("Couldn't read from any nodes: " ++ "\n".intercalate entries) :=
  ⟨by simp, by decide,
    (C2_aggregated_error .getMinedNonce
      [⟨"a", 0, some "timeout"⟩, ⟨"b", 7, some "refused"⟩]).2 (by simp)⟩

/-- Claim C3 as stated fails: with two nodes whose first received reply is a success,
`GetCode` returns after receiving one response, not two. -/
theorem C3_counterexample :
    (GetCode [⟨"a", [1], none⟩, ⟨"b", [2], none⟩]).received = 1 ∧
    ([⟨"a", [1], none⟩, ⟨"b", [2], none⟩] : List (NodeReply (List Byte))).length = 2 := by
  decide

/-- Claim C3, amended. A redundant read receives responses up to and including the first
successful one and then returns: with a success at position k (from 0) preceded only by
failures it has received k + 1 responses; when all N calls fail it has received N. It never
receives more than N, and it has received all N exactly when every call fails or the only
successful response is the last one received. -/
theorem C3_received_until_first_success (op : ReadOp) (arrivals : List (NodeReply op.Val)) :
    (∀ pre r post, arrivals = pre ++ r :: post → (∀ x ∈ pre, x.err ≠ none) → r.err = none →
      (op.run arrivals).received = pre.length + 1) ∧
    ((∀ x ∈ arrivals, x.err ≠ none) → (op.run arrivals).received = arrivals.length) ∧
    (op.run arrivals).received ≤ arrivals.length ∧
    ((op.run arrivals).received = arrivals.length ↔
      ((∀ x ∈ arrivals, x.err ≠ none) ∨
        ∃ pre r, arrivals = pre ++ [r] ∧ (∀ x ∈ pre, x.err ≠ none) ∧ r.err = none)) := by
  have h1 : ∀ pre r post, arrivals = pre ++ r :: post → (∀ x ∈ pre, x.err ≠ none) →
      r.err = none → (op.run arrivals).received = pre.length + 1 := by
    intro pre r post hl hpre hr
    rw [ReadOp.run_eq, hl, redundantRead_first_success op.zero pre post r hpre hr]
  have h2 : (∀ x ∈ arrivals, x.err ≠ none) →
      (op.run arrivals).received = arrivals.length := by
    intro hall
    rw [ReadOp.run_eq, redundantRead_all_fail op.zero arrivals hall]
  refine ⟨h1, h2, ?_, ?_⟩
  · rcases arrivals_cases arrivals with hall | ⟨pre, r, post, hl, hpre, hr⟩
    · exact le_of_eq (h2 hall)
    · rw [h1 pre r post hl hpre hr, hl]
      simp
  · constructor
    · intro hrec
      rcases arrivals_cases arrivals with hall | ⟨pre, r, post, hl, hpre, hr⟩
      · exact Or.inl hall
      · right
        have hlen : arrivals.length = pre.length + (post.length + 1) := by
          rw [hl]; simp
        have hpost : post = [] := by
          apply List.eq_nil_of_length_eq_zero
          have := h1 pre r post hl hpre hr
          omega
        exact ⟨pre, r, by rw [hl, hpost], hpre, hr⟩
    · rintro (hall | ⟨pre, r, hl, hpre, hr⟩)
      · exact h2 hall
      · rw [h1 pre r [] hl hpre hr, hl]
        simp

/-- Witness of the amended C3: a failure, then a success, then another reply: two received. -/
theorem C3_received_until_first_success_witness :
    (GetLogs [⟨"a", [], some "down"⟩, ⟨"b", [], none⟩, ⟨"c", [], none⟩]).received = 2 :=
  (C3_received_until_first_success .getLogs
    [⟨"a", [], some "down"⟩, ⟨"b", [], none⟩, ⟨"c", [], none⟩]).1
    [⟨"a", [], some "down"⟩] ⟨"b", [], none⟩ [⟨"c", [], none⟩] rfl (by simp) rfl

/-! ## Transaction status: claims C4 to C6 -/

/-- The error returned by `TxInfoFromHash` is always the error of the transaction lookup. -/
theorem TxInfoFromHash_err (txArrivals : List (NodeReply (Option Transaction × Bool)))
    (receiptArrivals : List (NodeReply (Option Receipt))) :
    (TxInfoFromHash txArrivals receiptArrivals).2 = (TransactionByHash txArrivals).err := by
  unfold TxInfoFromHash
  simp only
  split
  · next e he => rw [he]
  · next he =>
    rw [he]
    split
    · rfl
    · split
      · rfl
      · split
        · rfl
        · split
          · rfl
          · split <;> rfl

/-- Claim C4. A mined (not pending) transaction whose receipt has a `PostState` of hash
length (32 bytes) is classified "done" with a nil error, whatever the receipt's `Status`;
it is not classified "reverted". -/
theorem C4_hash_poststate_done (txArrivals : List (NodeReply (Option Transaction × Bool)))
    (receiptArrivals : List (NodeReply (Option Receipt))) (tx : Transaction) (receipt : Receipt)
    (hlookup : (TransactionByHash txArrivals).err = none)
    (hmined : (TransactionByHash txArrivals).value = (some tx, false))
    (hreceipt : (TransactionReceipt receiptArrivals).value = some receipt)
    (hpost : receipt.PostState.length = 32) :
    TxInfoFromHash txArrivals receiptArrivals =
      ({ Status := "done", Tx := some tx, InternalTxs := some [], Receipt := some receipt },
        none) ∧
    (TxInfoFromHash txArrivals receiptArrivals).1.Status ≠ "reverted" := by
  have h : TxInfoFromHash txArrivals receiptArrivals =
      ({ Status := "done", Tx := some tx, InternalTxs := some [], Receipt := some receipt },
        none) := by
    simp [TxInfoFromHash, hlookup, hmined, hreceipt, hpost, HashLength]
  refine ⟨h, ?_⟩
  rw [h]
  simp

/-- Witness of C4: a mined transaction whose receipt has a 32-byte `PostState` and
`Status = 0` is "done". -/
theorem C4_hash_poststate_done_witness :
    TxInfoFromHash
        [⟨"a", (some ⟨"0x01", some "0x02", "0x03", [], 0, 21000⟩, false), none⟩]
        [⟨"a", some ⟨List.replicate 32 0, 0, []⟩, none⟩] =
      ({ Status := "done", Tx := some ⟨"0x01", some "0x02", "0x03", [], 0, 21000⟩,
         InternalTxs := some [], Receipt := some ⟨List.replicate 32 0, 0, []⟩ }, none) ∧
    (TxInfoFromHash
        [⟨"a", (some ⟨"0x01", some "0x02", "0x03", [], 0, 21000⟩, false), none⟩]
        [⟨"a", some ⟨List.replicate 32 0, 0, []⟩, none⟩]).1.Status ≠ "reverted" :=
  C4_hash_poststate_done
    [⟨"a", (some ⟨"0x01", some "0x02", "0x03", [], 0, 21000⟩, false), none⟩]
    [⟨"a", some ⟨List.replicate 32 0, 0, []⟩, none⟩]
    ⟨"0x01", some "0x02", "0x03", [], 0, 21000⟩ ⟨List.replicate 32 0, 0, []⟩
    rfl rfl rfl (by decide)

/-- Claim C5. The status of `TxInfoFromHash` is one of error, notfound, pending, done,
reverted: "error" with a non-nil error exactly when the transaction lookup fails; "notfound"
when the lookup succeeds with no transaction; "pending" when the transaction is pending, or
is not pending and no receipt is obtained; for a receipt whose `PostState` is not of hash
length, "done" when `Status` is 1 and "reverted" otherwise. With "done" and "reverted" the
info carries the transaction and the receipt. -/
theorem C5_status_table (txArrivals : List (NodeReply (Option Transaction × Bool)))
    (receiptArrivals : List (NodeReply (Option Receipt))) :
    (TxInfoFromHash txArrivals receiptArrivals).1.Status ∈
      ["error", "notfound", "pending", "done", "reverted"] ∧
    ((TxInfoFromHash txArrivals receiptArrivals).1.Status = "error" ↔
      (TransactionByHash txArrivals).err ≠ none) ∧
    ((TxInfoFromHash txArrivals receiptArrivals).2 ≠ none ↔
      (TransactionByHash txArrivals).err ≠ none) ∧
    ((TransactionByHash txArrivals).err = none →
      (TransactionByHash txArrivals).value.1 = none →
      (TxInfoFromHash txArrivals receiptArrivals).1.Status = "notfound") ∧
    (∀ tx, (TransactionByHash txArrivals).err = none →
      (TransactionByHash txArrivals).value.1 = some tx →
      ((TransactionByHash txArrivals).value.2 = true ∨
        (TransactionReceipt receiptArrivals).value = none) →
      (TxInfoFromHash txArrivals receiptArrivals).1.Status = "pending") ∧
    (∀ tx receipt, (TransactionByHash txArrivals).err = none →
      (TransactionByHash txArrivals).value = (some tx, false) →
      (TransactionReceipt receiptArrivals).value = some receipt →
      receipt.PostState.length ≠ 32 →
      (receipt.Status = 1 → (TxInfoFromHash txArrivals receiptArrivals).1.Status = "done") ∧
      (receipt.Status ≠ 1 →
        (TxInfoFromHash txArrivals receiptArrivals).1.Status = "reverted")) ∧
    (((TxInfoFromHash txArrivals receiptArrivals).1.Status = "done" ∨
        (TxInfoFromHash txArrivals receiptArrivals).1.Status = "reverted") →
      ∃ tx receipt, (TransactionByHash txArrivals).value.1 = some tx ∧
        (TransactionReceipt receiptArrivals).value = some receipt ∧
        (TxInfoFromHash txArrivals receiptArrivals).1.Tx = some tx ∧
        (TxInfoFromHash txArrivals receiptArrivals).1.Receipt = some receipt) := by
  cases herr : (TransactionByHash txArrivals).err with
  | some e => simp [TxInfoFromHash, herr]
  | none =>
    cases htx : (TransactionByHash txArrivals).value.1 with
    | none =>
      simp [TxInfoFromHash, herr, htx]
      intro tx receipt hv
      rw [hv] at htx
      cases htx
    | some tx =>
      cases hp : (TransactionByHash txArrivals).value.2 with
      | true =>
        simp [TxInfoFromHash, herr, htx, hp]
        intro tx2 receipt hv
        rw [hv] at hp
        cases hp
      | false =>
        have hv : (TransactionByHash txArrivals).value = (some tx, false) :=
          Prod.ext htx hp
        cases hrc : (TransactionReceipt receiptArrivals).value with
        | none => simp [TxInfoFromHash, herr, hv, hrc]
        | some receipt =>
          by_cases hpost : receipt.PostState.length = 32
          · simp [TxInfoFromHash, herr, hv, hrc, hpost, HashLength]
          · by_cases hst : receipt.Status = 1
            · simp [TxInfoFromHash, herr, hv, hrc, hpost, hst, HashLength]
            · simp [TxInfoFromHash, herr, hv, hrc, hpost, hst, HashLength]

/-- Witness of C5: a mined transaction with an empty `PostState` and `Status = 0` is
"reverted" and carries transaction and receipt. -/
theorem C5_status_table_witness :
    (TxInfoFromHash
        [⟨"a", (some ⟨"0x01", some "0x02", "0x03", [], 0, 21000⟩, false), none⟩]
        [⟨"a", some ⟨[], 0, []⟩, none⟩]).1.Status = "reverted" :=
  ((C5_status_table
      [⟨"a", (some ⟨"0x01", some "0x02", "0x03", [], 0, 21000⟩, false), none⟩]
      [⟨"a", some ⟨[], 0, []⟩, none⟩]).2.2.2.2.2.1
    ⟨"0x01", some "0x02", "0x03", [], 0, 21000⟩ ⟨[], 0, []⟩ rfl rfl rfl (by decide)).2
    (by decide)

/-- Claim C6 as stated fails: the transaction lookup finds a mined transaction, the receipt
lookup fails on both nodes, and `TxInfoFromHash` returns "pending" with a nil error. -/
theorem C6_counterexample :
    (∀ x ∈ ([⟨"a", none, some "not found"⟩, ⟨"b", none, some "timeout"⟩] :
      List (NodeReply (Option Receipt))), x.err ≠ none) ∧
    (TransactionReceipt [⟨"a", none, some "not found"⟩, ⟨"b", none, some "timeout"⟩]).err =
      some "Couldn't read from any nodes: 1. a: not found\n2. b: timeout" ∧
    TxInfoFromHash
        [⟨"a", (some ⟨"0x01", some "0x02", "0x03", [], 0, 21000⟩, false), none⟩]
        [⟨"a", none, some "not found"⟩, ⟨"b", none, some "timeout"⟩] =
      ({ Status := "pending", Tx := some ⟨"0x01", some "0x02", "0x03", [], 0, 21000⟩,
         InternalTxs := none, Receipt := none }, none) := by
  decide

/-- Claim C6, amended. The error of `TxInfoFromHash` is the error of the transaction lookup:
when that lookup fails on all nodes, the aggregated error is returned with status "error".
The error of the receipt lookup is discarded: when a mined transaction is found and the
receipt lookup fails on all nodes, the result is "pending" with a nil error. -/
theorem C6_lookup_error_propagates (txArrivals : List (NodeReply (Option Transaction × Bool)))
    (receiptArrivals : List (NodeReply (Option Receipt))) :
    ((∀ x ∈ txArrivals, x.err ≠ none) →
      (TxInfoFromHash txArrivals receiptArrivals).2 =
        some ("Couldn't read from any nodes: " ++
          errorInfo (txArrivals.map fun x => (wrapError x.err x.NodeName).getD "")) ∧
      (TxInfoFromHash txArrivals receiptArrivals).1.Status = "error") ∧
    (∀ tx, (TransactionByHash txArrivals).err = none →
      (TransactionByHash txArrivals).value = (some tx, false) →
      (∀ x ∈ receiptArrivals, x.err ≠ none) →
      TxInfoFromHash txArrivals receiptArrivals =
        ({ Status := "pending", Tx := some tx, InternalTxs := none, Receipt := none },
          none)) := by
  constructor
  · intro hall
    have h : TransactionByHash txArrivals = _ := redundantRead_all_fail (none, false) txArrivals hall
    constructor
    · rw [TxInfoFromHash_err, h]
    · simp [TxInfoFromHash, h]
  · intro tx herr hv hall
    have h : TransactionReceipt receiptArrivals = _ :=
      redundantRead_all_fail none receiptArrivals hall
    simp [TxInfoFromHash, herr, hv, h]

/-- Witness of the amended C6: both nodes fail the transaction lookup. -/
theorem C6_lookup_error_propagates_witness :
    (TxInfoFromHash [⟨"a", (none, false), some "down"⟩, ⟨"b", (none, false), some "busy"⟩]
        []).2 =
      some ("Couldn't read from any nodes: " ++
        errorInfo (([⟨"a", (none, false), some "down"⟩, ⟨"b", (none, false), some "busy"⟩] :
          List (NodeReply (Option Transaction × Bool))).map
            fun x => (wrapError x.err x.NodeName).getD "")) ∧
    (TxInfoFromHash [⟨"a", (none, false), some "down"⟩, ⟨"b", (none, false), some "busy"⟩]
        []).1.Status = "error" :=
  (C6_lookup_error_propagates
    [⟨"a", (none, false), some "down"⟩, ⟨"b", (none, false), some "busy"⟩] []).1 (by simp)

/-! ## Gas price cache: claims C7 and C8 -/

/-- A call that finds a non-zero cached price not older than 30 seconds issues no request
and changes nothing. -/
theorem RecommendedGasPriceEthereum_cached {F : Type} [GoFloat F] (self : GasCache F)
    (now stamp : Int) (oracle : OracleOutcome F)
    (hnz : GoFloat.isZero self.latestGasPrice = false)
    (hfresh : now - self.gasPriceTimestamp ≤ 30) :
    RecommendedGasPriceEthereum self now stamp oracle =
      { cache := self, price := self.latestGasPrice, err := none, fetches := 0 } := by
  have h : ¬ (now - self.gasPriceTimestamp > 30) := by omega
  simp [RecommendedGasPriceEthereum, hnz, h]

/-- A call that finds a zero price or a timestamp older than 30 seconds issues exactly one
request. -/
theorem RecommendedGasPriceEthereum_stale {F : Type} [GoFloat F] (self : GasCache F)
    (now stamp : Int) (oracle : OracleOutcome F)
    (hstale : GoFloat.isZero self.latestGasPrice = true ∨ now - self.gasPriceTimestamp > 30) :
    (RecommendedGasPriceEthereum self now stamp oracle).fetches = 1 ∧
    (∀ prices, oracle = .decoded prices →
      RecommendedGasPriceEthereum self now stamp oracle =
        { cache := { latestGasPrice := GoFloat.div10 prices.Fast, gasPriceTimestamp := stamp }
          price := GoFloat.div10 prices.Fast, err := none, fetches := 1 }) := by
  have hc : (GoFloat.isZero self.latestGasPrice ||
      decide (now - self.gasPriceTimestamp > 30)) = true := by
    rcases hstale with h | h
    · simp [h]
    · simp [h]
  constructor
  · unfold RecommendedGasPriceEthereum
    rw [if_pos hc]
    cases oracle <;> rfl
  · intro prices ho
    subst ho
    unfold RecommendedGasPriceEthereum
    rw [if_pos hc]

/-- Calls made while the cache holds a non-zero price and is at most 30 seconds old all
return the cached price without a request and leave the cache as it is. -/
theorem runGasPriceCalls_cached {F : Type} [GoFloat F] (self : GasCache F)
    (hnz : GoFloat.isZero self.latestGasPrice = false) :
    ∀ later : List (GasPriceRequest F),
      (∀ c ∈ later, c.now - self.gasPriceTimestamp ≤ 30) →
      runGasPriceCalls self later =
        later.map fun _ =>
          { cache := self, price := self.latestGasPrice, err := none, fetches := 0 } := by
  intro later
  induction later with
  | nil => intro _; rfl
  | cons c rest ih =>
    intro hwin
    have hc := RecommendedGasPriceEthereum_cached self c.now c.stamp c.oracle hnz
      (hwin c (by simp))
    have hrest : ∀ d ∈ rest, d.now - self.gasPriceTimestamp ≤ 30 :=
      fun d hd => hwin d (by simp [hd])
    simp only [runGasPriceCalls, hc, List.map_cons]
    rw [ih hrest]

/-- Claim C7 as stated fails: the first call fetches successfully at time 1000 an oracle
response whose fast tier is 0, so the cached price is 0; the call one second later issues a
request again. -/
theorem C7_counterexample :
    (RecommendedGasPriceEthereum (⟨0, 0⟩ : GasCache ℚ) 1000 1000
      (.decoded ⟨0, 0, 0, 0⟩)).fetches = 1 ∧
    (RecommendedGasPriceEthereum (⟨0, 0⟩ : GasCache ℚ) 1000 1000
      (.decoded ⟨0, 0, 0, 0⟩)).err = none ∧
    (1001 : Int) - (RecommendedGasPriceEthereum (⟨0, 0⟩ : GasCache ℚ) 1000 1000
      (.decoded ⟨0, 0, 0, 0⟩)).cache.gasPriceTimestamp < 30 ∧
    (RecommendedGasPriceEthereum
      (RecommendedGasPriceEthereum (⟨0, 0⟩ : GasCache ℚ) 1000 1000
        (.decoded ⟨0, 0, 0, 0⟩)).cache
      1001 1001 (.decoded ⟨40, 50, 60, 30⟩)).fetches = 1 := by
  simp [RecommendedGasPriceEthereum, GoFloat.isZero, GoFloat.div10]

/-- Claim C7, amended. After a first call whose oracle fetch succeeds at time t0 and stores
a price that is not zero, every later call made at a time t with t - t0 < 30 issues no
oracle fetch and returns the cached price with a nil error, leaving the cache unchanged. -/
theorem C7_no_fetch_within_window {F : Type} [GoFloat F] (self : GasCache F) (now t0 : Int)
    (prices : gsresponse F) (later : List (GasPriceRequest F))
    (hfetch : (RecommendedGasPriceEthereum self now t0 (.decoded prices)).fetches = 1)
    (hnz : GoFloat.isZero (GoFloat.div10 prices.Fast) = false)
    (hwin : ∀ c ∈ later, c.now - t0 < 30) :
    (RecommendedGasPriceEthereum self now t0 (.decoded prices)).cache =
      { latestGasPrice := GoFloat.div10 prices.Fast, gasPriceTimestamp := t0 } ∧
    runGasPriceCalls (RecommendedGasPriceEthereum self now t0 (.decoded prices)).cache later =
      later.map fun _ =>
        { cache := { latestGasPrice := GoFloat.div10 prices.Fast, gasPriceTimestamp := t0 }
          price := GoFloat.div10 prices.Fast, err := none, fetches := 0 } := by
  have hcache : (RecommendedGasPriceEthereum self now t0 (.decoded prices)).cache =
      { latestGasPrice := GoFloat.div10 prices.Fast, gasPriceTimestamp := t0 } := by
    unfold RecommendedGasPriceEthereum at hfetch ⊢
    split
    · rfl
    · next h => rw [if_neg h] at hfetch; cases hfetch
  rw [hcache]
  exact ⟨rfl, runGasPriceCalls_cached
    ({ latestGasPrice := GoFloat.div10 prices.Fast, gasPriceTimestamp := t0 } : GasCache F)
    hnz later (fun c hc => le_of_lt (hwin c hc))⟩

/-- Witness of the amended C7: a fast tier of 125 is cached as 12.5 at time 1000; calls at
times 1010 and 1029 return it without a request. -/
theorem C7_no_fetch_within_window_witness :
    runGasPriceCalls
        (RecommendedGasPriceEthereum (⟨0, 0⟩ : GasCache ℚ) 1000 1000
          (.decoded ⟨100, 125, 150, 80⟩)).cache
        [⟨1010, 1010, .decoded ⟨1, 2, 3, 4⟩⟩, ⟨1029, 1029, .getFailed "offline"⟩] =
      ([⟨1010, 1010, .decoded ⟨1, 2, 3, 4⟩⟩, ⟨1029, 1029, .getFailed "offline"⟩] :
        List (GasPriceRequest ℚ)).map fun _ =>
        { cache := { latestGasPrice := GoFloat.div10 (125 : ℚ), gasPriceTimestamp := 1000 }
          price := GoFloat.div10 (125 : ℚ), err := none, fetches := 0 } :=
  (C7_no_fetch_within_window (⟨0, 0⟩ : GasCache ℚ) 1000 1000 ⟨100, 125, 150, 80⟩
    [⟨1010, 1010, .decoded ⟨1, 2, 3, 4⟩⟩, ⟨1029, 1029, .getFailed "offline"⟩]
    (by decide) (by simp [GoFloat.isZero, GoFloat.div10]) (by decide)).2

/-- Claim C8 as stated fails: with a cached price of 5 stamped at time 100, a call at time
130 (exactly 30 seconds later) issues no request and keeps price and timestamp. -/
theorem C8_counterexample :
    (130 : Int) - (⟨5, 100⟩ : GasCache ℚ).gasPriceTimestamp ≥ 30 ∧
    (RecommendedGasPriceEthereum (⟨5, 100⟩ : GasCache ℚ) 130 131
      (.decoded ⟨40, 70, 90, 30⟩)).fetches = 0 ∧
    (RecommendedGasPriceEthereum (⟨5, 100⟩ : GasCache ℚ) 130 131
      (.decoded ⟨40, 70, 90, 30⟩)).cache.latestGasPrice = 5 ∧
    (RecommendedGasPriceEthereum (⟨5, 100⟩ : GasCache ℚ) 130 131
      (.decoded ⟨40, 70, 90, 30⟩)).cache.gasPriceTimestamp = 100 := by
  decide

/-- Claim C8, amended. A call made when more than 30 seconds have elapsed since the cached
timestamp (now - gasPriceTimestamp > 30) performs exactly one oracle fetch and, when the
fetch succeeds, replaces the cached price by a tenth of the fast tier and the timestamp by
the time of the store, and returns the new price with a nil error. -/
theorem C8_refresh_after_window {F : Type} [GoFloat F] (self : GasCache F) (now stamp : Int)
    (oracle : OracleOutcome F) (hstale : now - self.gasPriceTimestamp > 30) :
    (RecommendedGasPriceEthereum self now stamp oracle).fetches = 1 ∧
    (∀ prices, oracle = .decoded prices →
      (RecommendedGasPriceEthereum self now stamp oracle).cache =
        { latestGasPrice := GoFloat.div10 prices.Fast, gasPriceTimestamp := stamp } ∧
      (RecommendedGasPriceEthereum self now stamp oracle).price = GoFloat.div10 prices.Fast ∧
      (RecommendedGasPriceEthereum self now stamp oracle).err = none) := by
  obtain ⟨h1, h2⟩ := RecommendedGasPriceEthereum_stale self now stamp oracle (Or.inr hstale)
  refine ⟨h1, ?_⟩
  intro prices ho
  rw [h2 prices ho]
  exact ⟨rfl, rfl, rfl⟩

/-- Witness of the amended C8: a price of 5 stamped at time 100 is refreshed by a call at
time 131. -/
theorem C8_refresh_after_window_witness :
    (RecommendedGasPriceEthereum (⟨5, 100⟩ : GasCache ℚ) 131 132
      (.decoded ⟨40, 70, 90, 30⟩)).fetches = 1 ∧
    (RecommendedGasPriceEthereum (⟨5, 100⟩ : GasCache ℚ) 131 132
      (.decoded ⟨40, 70, 90, 30⟩)).cache =
        { latestGasPrice := GoFloat.div10 (70 : ℚ), gasPriceTimestamp := 132 } :=
  ⟨(C8_refresh_after_window (⟨5, 100⟩ : GasCache ℚ) 131 132 (.decoded ⟨40, 70, 90, 30⟩)
      (by decide)).1,
    ((C8_refresh_after_window (⟨5, 100⟩ : GasCache ℚ) 131 132 (.decoded ⟨40, 70, 90, 30⟩)
      (by decide)).2 ⟨40, 70, 90, 30⟩ rfl).1⟩

/-! ## Multisig recognizer: claim C9 -/

/-- Claim C9: the code at the failing inputs. `isGnosisMultisig` answers true for a method
named "submitTransaction" that has no input at all, and for one whose only input is named
"destination"; with a fourth input after the three expected names the index into the
expected names runs out of range. The three expected names are accepted and a swapped order
is rejected. -/
theorem C9_recognizer_on_short_and_long_methods :
    isGnosisMultisig ⟨"submitTransaction", []⟩ [] = some true ∧
    isGnosisMultisig ⟨"submitTransaction", [⟨"destination", .AddressTy, false⟩]⟩
      [.address (List.replicate 20 0)] = some true ∧
    isGnosisMultisig
      ⟨"submitTransaction",
        [⟨"destination", .AddressTy, false⟩, ⟨"value", .UintTy 256, false⟩,
         ⟨"data", .BytesTy, false⟩, ⟨"extra", .BoolTy, false⟩]⟩
      [.address (List.replicate 20 0), .int 0, .bytes [], .bool true] = none ∧
    isGnosisMultisig
      ⟨"submitTransaction",
        [⟨"destination", .AddressTy, false⟩, ⟨"value", .UintTy 256, false⟩,
         ⟨"data", .BytesTy, false⟩]⟩
      [.address (List.replicate 20 0), .int 0, .bytes []] = some true ∧
    isGnosisMultisig
      ⟨"submitTransaction",
        [⟨"value", .UintTy 256, false⟩, ⟨"destination", .AddressTy, false⟩,
         ⟨"data", .BytesTy, false⟩]⟩
      [.int 0, .address (List.replicate 20 0), .bytes []] = some false ∧
    isGnosisMultisig ⟨"transfer", []⟩ [] = some false := by
  decide

/-! ## Rendering of arrays and slices: claim C10 -/

theorem join_cons (a : String) (l : List String) :
    String.join (a :: l) = a ++ String.join l := by
  apply String.ext
  simp [String.join_eq, String.data_append]

theorem intercalate_go (s : String) :
    ∀ (l : List String) (acc : String),
      String.intercalate.go acc s l = acc ++ String.join (l.map fun a => s ++ a) := by
  intro l
  induction l with
  | nil =>
    intro acc
    apply String.ext
    simp [String.intercalate.go, String.join_eq, String.data_append]
  | cons a tl ih =>
    intro acc
    simp only [String.intercalate.go, List.map_cons, join_cons, ih, String.append_assoc]

/-- The loop of `paramAsString` appends, for every element, a newline, the index, ". " and
the rendering of the element. -/
theorem paramAsString_loop_some (render : Value → Option String) :
    ∀ (elems : List Value) (rendered : List String) (i : Nat) (result : String),
      elems.map render = rendered.map some →
      paramAsString.loop render elems i result =
        some (result ++ String.join ((rendered.enumFrom i).map
          fun p => "\n" ++ (toString p.1 ++ ". " ++ p.2))) := by
  intro elems
  induction elems with
  | nil =>
    intro rendered i result h
    cases rendered with
    | nil =>
      simp only [paramAsString.loop, List.enumFrom_nil, List.map_nil]
      congr 1
      apply String.ext
      simp [String.join_eq, String.data_append]
    | cons r rs => simp at h
  | cons v tl ih =>
    intro rendered i result h
    cases rendered with
    | nil => simp at h
    | cons r rs =>
      simp only [List.map_cons, List.cons.injEq] at h
      obtain ⟨hv, htl⟩ := h
      simp only [paramAsString.loop, hv, List.enumFrom_cons, List.map_cons, join_cons]
      rw [ih rs (i + 1) _ htl]
      simp only [String.append_assoc]

/-- The loop of `paramAsString` panics as soon as the rendering of an element does. -/
theorem paramAsString_loop_none (render : Value → Option String) :
    ∀ (elems : List Value) (i : Nat) (result : String),
      (∃ e ∈ elems, render e = none) → paramAsString.loop render elems i result = none := by
  intro elems
  induction elems with
  | nil => rintro i result ⟨e, he, _⟩; cases he
  | cons v tl ih =>
    rintro i result ⟨e, he, hn⟩
    cases hv : render v with
    | none => simp [paramAsString.loop, hv]
    | some s =>
      have he2 : e ∈ tl := by
        rcases List.mem_cons.mp he with h | h
        · subst h; rw [hv] at hn; cases hn
        · exact h
      simp only [paramAsString.loop, hv]
      exact ih _ _ ⟨e, he2, hn⟩

/-- On a slice or array type `paramAsString` is the loop over the elements of the value. -/
theorem paramAsString_container (self : TxAnalyzer) (t elem : AbiType) (value : Value)
    (elems : List Value) (ht : t = .SliceTy elem ∨ ∃ n, t = .ArrayTy n elem)
    (hv : reflectElems value = some elems) :
    self.paramAsString t value = paramAsString.loop (self.paramAsString elem) elems 0 "" := by
  rcases ht with rfl | ⟨n, rfl⟩
  · rw [TxAnalyzer.paramAsString, hv]
  · rw [TxAnalyzer.paramAsString, hv]

/-- Claim C10 as stated fails: a slice of the two strings "a" and "b" renders with a newline
before the first line, which differs from the two lines joined by a newline. -/
theorem C10_counterexample :
    plainAnalyzer.paramAsString (.SliceTy .StringTy) (.seq [.string "a", .string "b"]) =
      some "\n0. a\n1. b" ∧
    plainAnalyzer.paramAsString .StringTy (.string "a") = some "a" ∧
    plainAnalyzer.paramAsString .StringTy (.string "b") = some "b" ∧
    "\n".intercalate ["0. a", "1. b"] = "0. a\n1. b" ∧
    ("\n0. a\n1. b" : String) ≠ "0. a\n1. b" := by
  decide

/-- Claim C10, amended. For every slice or array type (also of slices or arrays) and every
value of it with elements e_0 .. e_(n-1), `paramAsString` returns the concatenation, for
i = 0 .. n-1, of a newline followed by the line "i. " and the rendering of e_i at the element
type: the lines are separated by single newlines and a newline also precedes the first line;
there is none after the last, and for n = 0 the result is the empty string. Where the
rendering of an element panics, so does the rendering of the container. -/
theorem C10_each_line_after_newline (self : TxAnalyzer) (t elem : AbiType) (value : Value)
    (elems : List Value) (ht : t = .SliceTy elem ∨ ∃ n, t = .ArrayTy n elem)
    (hv : reflectElems value = some elems) :
    (∀ rendered : List String, elems.map (self.paramAsString elem) = rendered.map some →
      self.paramAsString t value =
        some (String.join (rendered.enum.map
          fun p => "\n" ++ (toString p.1 ++ ". " ++ p.2))) ∧
      (rendered ≠ [] →
        self.paramAsString t value =
          some ("\n" ++ "\n".intercalate (rendered.enum.map
            fun p => toString p.1 ++ ". " ++ p.2))) ∧
      (rendered = [] → self.paramAsString t value = some "")) ∧
    ((∃ e ∈ elems, self.paramAsString elem e = none) → self.paramAsString t value = none) := by
  rw [paramAsString_container self t elem value elems ht hv]
  constructor
  · intro rendered hr
    have h := paramAsString_loop_some (self.paramAsString elem) elems rendered 0 "" hr
    have hempty : ∀ x : String, "" ++ x = x := by
      intro x
      apply String.ext
      simp [String.data_append]
    rw [hempty] at h
    refine ⟨h, ?_, ?_⟩
    · intro hne
      rw [h]
      cases rendered with
      | nil => exact absurd rfl hne
      | cons r rs =>
        simp only [List.enum, List.enumFrom_cons, List.map_cons, String.intercalate,
          join_cons, intercalate_go, List.map_map, Function.comp_def, String.append_assoc]
    · intro hnil
      rw [h, hnil]
      rfl
  · exact paramAsString_loop_none (self.paramAsString elem) elems 0 ""

/-- Witness of the amended C10: a slice holding the slice of "x" and "y" and the empty
slice, at type string[][]. -/
theorem C10_each_line_after_newline_witness :
    plainAnalyzer.paramAsString (.SliceTy (.SliceTy .StringTy))
        (.seq [.seq [.string "x", .string "y"], .seq []]) =
      some (String.join ((["\n0. x\n1. y", ""] : List String).enum.map
        fun p => "\n" ++ (toString p.1 ++ ". " ++ p.2))) :=
  ((C10_each_line_after_newline plainAnalyzer (.SliceTy (.SliceTy .StringTy))
    (.SliceTy .StringTy) (.seq [.seq [.string "x", .string "y"], .seq []])
    [.seq [.string "x", .string "y"], .seq []] (Or.inl rfl) rfl).1
    ["\n0. x\n1. y", ""] (by decide)).1

/-! ## Fixed-size byte words: claim C11 -/

theorem reflectCopy_replicate (b : List Byte) :
    reflectCopy (List.replicate b.length 0) b = b := by
  simp [reflectCopy]

theorem hexDigit_eq_digit :
    ∀ n : Fin 16, "0123456789abcdef".toList[n.val]? = some (hexDigit n.val) := by
  decide

theorem hexPairs_length : ∀ b : List Byte,
    (b.flatMap fun x => [hexDigit (x.val / 16), hexDigit (x.val % 16)]).length
      = 2 * b.length := by
  intro b
  induction b with
  | nil => rfl
  | cons y ys ih =>
    simp only [List.flatMap_cons, List.length_append, List.length_cons, List.length_nil, ih]
    omega

theorem hexPairs_getElem? : ∀ (b : List Byte) (i : Nat) (x : Byte), b[i]? = some x →
    (b.flatMap fun x => [hexDigit (x.val / 16), hexDigit (x.val % 16)])[2 * i]?
      = some (hexDigit (x.val / 16)) ∧
    (b.flatMap fun x => [hexDigit (x.val / 16), hexDigit (x.val % 16)])[2 * i + 1]?
      = some (hexDigit (x.val % 16)) := by
  intro b
  induction b with
  | nil => intro i x h; simp at h
  | cons y ys ih =>
    intro i x h
    cases i with
    | zero =>
      simp only [List.getElem?_cons_zero, Option.some.injEq] at h
      subst h
      simp [List.flatMap_cons]
    | succ j =>
      simp only [List.getElem?_cons_succ] at h
      have e1 : 2 * (j + 1) = 2 * j + 1 + 1 := by omega
      obtain ⟨h1, h2⟩ := ih j x h
      rw [e1]
      simp only [List.flatMap_cons, List.cons_append, List.nil_append,
        List.getElem?_cons_succ]
      exact ⟨h1, h2⟩

/-- Claim C11. For a fixed-size byte type of declared width W and a W-byte value of it,
`nonArrayParamAsString` returns "0x" followed by exactly 2*W hexadecimal digits: the digits
at positions 2i and 2i+1 are the high and the low half of the i-th byte, so zero bytes
anywhere in the value are rendered. -/
theorem C11_fixed_bytes_full_width (self : TxAnalyzer) (W : Nat) (b : List Byte)
    (hb : b.length = W) :
    ∃ digits : List Char,
      self.nonArrayParamAsString (.FixedBytesTy W) (.fixedBytes b)
        = some ("0x" ++ String.mk digits) ∧
      digits.length = 2 * W ∧
      (∀ i x, b[i]? = some x →
        digits[2 * i]? = "0123456789abcdef".toList[x.val / 16]? ∧
        digits[2 * i + 1]? = "0123456789abcdef".toList[x.val % 16]?) := by
  refine ⟨b.flatMap fun x => [hexDigit (x.val / 16), hexDigit (x.val % 16)], ?_, ?_, ?_⟩
  · simp only [TxAnalyzer.nonArrayParamAsString, reflectCopy_replicate, Bytes2Hex]
  · rw [hexPairs_length, hb]
  · intro i x hx
    obtain ⟨h1, h2⟩ := hexPairs_getElem? b i x hx
    have hhi : x.val / 16 < 16 := by have := x.isLt; omega
    have hlo : x.val % 16 < 16 := Nat.mod_lt _ (by decide)
    rw [h1, h2]
    exact ⟨(hexDigit_eq_digit ⟨x.val / 16, hhi⟩).symm,
      (hexDigit_eq_digit ⟨x.val % 16, hlo⟩).symm⟩

/-- Witness of C11: the four bytes 01 00 ab 00 at type bytes4. -/
theorem C11_fixed_bytes_full_width_witness :
    ∃ digits : List Char,
      plainAnalyzer.nonArrayParamAsString (.FixedBytesTy 4) (.fixedBytes [1, 0, 171, 0])
        = some ("0x" ++ String.mk digits) ∧
      digits.length = 2 * 4 ∧
      (∀ i x, ([1, 0, 171, 0] : List Byte)[i]? = some x →
        digits[2 * i]? = "0123456789abcdef".toList[x.val / 16]? ∧
        digits[2 * i + 1]? = "0123456789abcdef".toList[x.val % 16]?) :=
  C11_fixed_bytes_full_width plainAnalyzer 4 [1, 0, 171, 0] rfl

/-! ## ABI retrieval: claim C15 -/

/-- Claim C15. For a reader whose chain tag is none of ethereum, ropsten, kovan, rinkeby,
tomo, `GetABI` and `GetABIString` fail with "'tag' chain is not supported" and request
nothing over the network; for each of the five tags they are exactly the retrieval function
of that chain. -/
theorem C15_chain_dispatch (self : EthReader) (address : String) :
    (self.chain ∉ ["ethereum", "ropsten", "kovan", "rinkeby", "tomo"] →
      self.GetABI address =
        { value := none, err := some ("'" ++ self.chain ++ "' chain is not supported"),
          requests := [] } ∧
      self.GetABIString address =
        { value := "", err := some ("'" ++ self.chain ++ "' chain is not supported"),
          requests := [] }) ∧
    (self.chain = "ethereum" →
      self.GetABI address = self.GetEthereumABI address ∧
      self.GetABIString address = self.GetEthereumABIString address) ∧
    (self.chain = "ropsten" →
      self.GetABI address = self.GetRopstenABI address ∧
      self.GetABIString address = self.GetRopstenABIString address) ∧
    (self.chain = "kovan" →
      self.GetABI address = self.GetKovanABI address ∧
      self.GetABIString address = self.GetKovanABIString address) ∧
    (self.chain = "rinkeby" →
      self.GetABI address = self.GetRinkebyABI address ∧
      self.GetABIString address = self.GetRinkebyABIString address) ∧
    (self.chain = "tomo" →
      self.GetABI address = self.GetTomoABI address ∧
      self.GetABIString address = self.GetTomoABIString address) := by
  refine ⟨?_, ?_, ?_, ?_, ?_, ?_⟩
  · intro h
    simp only [List.mem_cons, List.mem_singleton, List.not_mem_nil, or_false, not_or] at h
    obtain ⟨h1, h2, h3, h4, h5⟩ := h
    simp [EthReader.GetABI, EthReader.GetABIString, h1, h2, h3, h4, h5]
  · intro h
    simp [EthReader.GetABI, EthReader.GetABIString, h]
  · intro h
    simp [EthReader.GetABI, EthReader.GetABIString, h]
  · intro h
    simp [EthReader.GetABI, EthReader.GetABIString, h]
  · intro h
    simp [EthReader.GetABI, EthReader.GetABIString, h]
  · intro h
    simp [EthReader.GetABI, EthReader.GetABIString, h]

/-- Witness of C15: the chain tag "xyz" is rejected without a request. -/
theorem C15_chain_dispatch_witness :
    (⟨"xyz", offlineNetwork⟩ : EthReader).GetABI "0x01" =
      { value := none, err := some ("'" ++ "xyz" ++ "' chain is not supported"),
        requests := [] } ∧
    (⟨"xyz", offlineNetwork⟩ : EthReader).GetABIString "0x01" =
      { value := "", err := some ("'" ++ "xyz" ++ "' chain is not supported"),
        requests := [] } :=
  (C15_chain_dispatch ⟨"xyz", offlineNetwork⟩ "0x01").1 (by decide)

/-! ## Method-call and event-log decoding: claims C12 and C13 -/

/-- The pairing loop yields one entry for each input when the values from position `i` on are
as many as the inputs and all render. -/
theorem paramResults_some (self : TxAnalyzer) (lib : AbiLibrary) (ps : List Value) :
    ∀ (args : List Argument) (i : Nat) (acc : List ParamResult) (vals : List Value)
      (rendered : List String),
      ps.drop i = vals → vals.length = args.length →
      List.zipWith (fun a v => self.paramAsString a.Type_ v) args vals = rendered.map some →
      paramResults self lib ps args i acc =
        some (acc ++ List.zipWith
          (fun a s => ({ Name := a.Name, Type_ := lib.TypeString a.Type_, Value := s } :
            ParamResult)) args rendered) := by
  intro args
  induction args with
  | nil =>
    intro i acc vals rendered _ _ _
    simp [paramResults]
  | cons a rest ih =>
    intro i acc vals rendered hdrop hlen hr
    cases vals with
    | nil => simp at hlen
    | cons v vs =>
      cases rendered with
      | nil => simp at hr
      | cons r rs =>
        simp only [List.zipWith_cons_cons, List.map_cons, List.cons.injEq] at hr
        obtain ⟨hv, hrest⟩ := hr
        have hi : ps[i]? = some v := by
          have h := List.getElem?_drop ps i 0
          rw [hdrop] at h
          simpa using h.symm
        have hd : ps.drop (i + 1) = vs := by
          rw [← List.tail_drop, hdrop]
          rfl
        have hl : vs.length = rest.length := by simpa using hlen
        rw [paramResults]
        simp only [hi, hv]
        rw [ih (i + 1) _ vs rs hd hl hrest]
        simp

/-- The topic loop names each topic after the indexed input at its position when the topics
are as many as the indexed inputs from position `j` on. -/
theorem AnalyzeLog_topics_some (iArgs : List Argument) :
    ∀ (topics : List (List Byte)) (j : Nat) (acc : List TopicResult) (args : List Argument),
      iArgs.drop j = args → args.length = topics.length →
      AnalyzeLog.topics iArgs topics j acc =
        some (acc ++ List.zipWith
          (fun a t => ({ Name := a.Name, Value := HashHex t } : TopicResult)) args topics) := by
  intro topics
  induction topics with
  | nil =>
    intro j acc args _ _
    simp [AnalyzeLog.topics]
  | cons t rest ih =>
    intro j acc args hdrop hlen
    cases args with
    | nil => simp at hlen
    | cons a as =>
      have hj : iArgs[j]? = some a := by
        have h := List.getElem?_drop iArgs j 0
        rw [hdrop] at h
        simpa using h.symm
      have hd : iArgs.drop (j + 1) = as := by
        rw [← List.tail_drop, hdrop]
        rfl
      have hl : as.length = rest.length := by simpa using hlen
      rw [AnalyzeLog.topics]
      simp only [hj]
      rw [ih (j + 1) _ as hd hl]
      simp

/-- The lookup returns the first event, in the order of the list, whose identifier is the
topic. -/
theorem findEventById_loop_first (lib : AbiLibrary) (topic : List Byte) (event : Event)
    (post : List Event) (hid : lib.EventID event = topic) :
    ∀ pre : List Event, (∀ e ∈ pre, lib.EventID e ≠ topic) →
      findEventById.loop lib topic (pre ++ event :: post) = some event := by
  intro pre
  induction pre with
  | nil => intro _; simp [findEventById.loop, hid]
  | cons e rest ih =>
    intro hpre
    have he : lib.EventID e ≠ topic := hpre e (by simp)
    simp only [List.cons_append, findEventById.loop, he, if_false]
    exact ih (fun x hx => hpre x (by simp [hx]))

/-- The lookup finds nothing when no event of the list has the topic as identifier. -/
theorem findEventById_loop_none (lib : AbiLibrary) (topic : List Byte) :
    ∀ events : List Event, (∀ e ∈ events, lib.EventID e ≠ topic) →
      findEventById.loop lib topic events = none := by
  intro events
  induction events with
  | nil => intro _; rfl
  | cons e rest ih =>
    intro h
    have he : lib.EventID e ≠ topic := h e (by simp)
    simp only [findEventById.loop, he, if_false]
    exact ih (fun x hx => h x (by simp [hx]))

/-- Claim C12 as stated fails: the ABI holds two events with the identifier of the first
topic, `Transfer0` and `Transfer`, and the range over the events meets `Transfer0` first. The
log has three topics and data that unpacks against the non-indexed input of `Transfer`, which
has two indexed inputs, but `AnalyzeLog` returns the name and the input names of
`Transfer0`. -/
theorem C12_counterexample :
    duplicateABI.Events = [transfer0Event, transferEvent] ∧
    rawNameLibrary.EventID transferEvent = transferID ∧
    (SplitEventArguments transferEvent.Inputs).1.length = 2 ∧
    rawNameLibrary.UnpackValues (SplitEventArguments transferEvent.Inputs).2 [9] =
      .ok [.int 1] ∧
    plainAnalyzer.AnalyzeLog rawNameLibrary duplicateABI ⟨[transferID, [1], [2]], [9]⟩ =
      some ({ Name := "Transfer0"
              Topics := [⟨"src", "0x01"⟩, ⟨"dst", "0x02"⟩]
              Data := [⟨"wad", "uint256", "1 (0x1)"⟩] }, none) ∧
    transferEvent.Name = "Transfer" :=
  ⟨rfl, by decide, by decide, rfl, by decide, rfl⟩

/-- Claim C12, amended. For the event that the range over the events of the ABI meets first
among those whose identifier is the first topic of the log (the only one when identifiers are
distinct), with k indexed inputs, a log with k further topics, and data that unpacks to one
value for each non-indexed input, each of which renders: `AnalyzeLog` returns the name of the
event, k topic entries pairing the j-th indexed input (declaration order) with the hex of
topic j+1, and one data entry for each non-indexed input with its name, type string and
rendering, with a nil error. When no event of the ABI has the first topic as identifier it
returns the error and the empty result. -/
theorem C12_event_log_decode (self : TxAnalyzer) (lib : AbiLibrary) (abi : ABI) (l : Log)
    (topic0 : List Byte) (moreTopics : List (List Byte))
    (htopics : l.Topics = topic0 :: moreTopics) :
    (∀ (event : Event) (pre post : List Event) (params : List Value)
      (rendered : List String),
      abi.Events = pre ++ event :: post → (∀ e ∈ pre, lib.EventID e ≠ topic0) →
      lib.EventID event = topic0 →
      (SplitEventArguments event.Inputs).1.length = moreTopics.length →
      lib.UnpackValues (SplitEventArguments event.Inputs).2 l.Data = .ok params →
      params.length = (SplitEventArguments event.Inputs).2.length →
      List.zipWith (fun a v => self.paramAsString a.Type_ v)
        (SplitEventArguments event.Inputs).2 params = rendered.map some →
      self.AnalyzeLog lib abi l =
        some ({ Name := event.Name
                Topics := List.zipWith
                  (fun a t => ({ Name := a.Name, Value := HashHex t } : TopicResult))
                  (SplitEventArguments event.Inputs).1 moreTopics
                Data := List.zipWith
                  (fun a s => ({ Name := a.Name, Type_ := lib.TypeString a.Type_,
                                 Value := s } : ParamResult))
                  (SplitEventArguments event.Inputs).2 rendered }, none)) ∧
    ((∀ e ∈ abi.Events, lib.EventID e ≠ topic0) →
      self.AnalyzeLog lib abi l =
        some ({ Name := "", Topics := [], Data := [] },
          some ("no event with id: " ++ fmtSharpHex topic0))) := by
  constructor
  · intro event pre post params rendered hevents hpre hid hk hunpack hlen hrender
    have hfind := findEventById_loop_first lib topic0 event post hid pre hpre
    rw [← hevents] at hfind
    have htop := AnalyzeLog_topics_some (SplitEventArguments event.Inputs).1 moreTopics 0 []
      (SplitEventArguments event.Inputs).1 rfl hk
    have hdata := paramResults_some self lib params (SplitEventArguments event.Inputs).2 0 []
      params rendered rfl hlen hrender
    simp only [List.nil_append] at htop hdata
    simp only [TxAnalyzer.AnalyzeLog, htopics, findEventById, hfind, htop, hunpack, hdata]
  · intro hnone
    have hfind := findEventById_loop_none lib topic0 abi.Events hnone
    simp only [TxAnalyzer.AnalyzeLog, htopics, findEventById, hfind]

/-- Witness of the amended C12: a `Transfer` log with two indexed topics and one data value,
decoded against the only event of `walletABI`. -/
theorem C12_event_log_decode_witness :
    plainAnalyzer.AnalyzeLog sampleLibrary walletABI ⟨[transferID, [1], [2]], [9]⟩ =
      some ({ Name := "Transfer"
              Topics := [⟨"from", "0x01"⟩, ⟨"to", "0x02"⟩]
              Data := [⟨"value", "uint256", "1 (0x1)"⟩] }, none) :=
  (C12_event_log_decode plainAnalyzer sampleLibrary walletABI ⟨[transferID, [1], [2]], [9]⟩
    transferID [[1], [2]] rfl).1 transferEvent [] [] [.int 1] ["1 (0x1)"]
    rfl (by simp) (by decide) (by decide) rfl (by decide) (by decide)

/-- The outcomes of `AnalyzeMethodCall` where the rendering does not panic: when the selector
resolves to a method and the remaining bytes unpack to one value for each declared input,
each of which renders, it returns the
name of the method, a nil error and one entry for each declared input, in declaration order,
with the name and type string of the input and the rendering of its value; when the selector
is not found it returns an empty name, no entries and the error; when unpacking fails it
returns the name of the resolved method, no entries and the error. -/
theorem AnalyzeMethodCall_outcomes (self : TxAnalyzer) (lib : AbiLibrary) (abi : ABI)
    (data : List Byte) :
    (∀ (m : Method) (ps : List Value) (rendered : List String),
      lib.MethodById abi data = .ok m → 4 ≤ data.length →
      lib.UnpackValues m.Inputs (data.drop 4) = .ok ps → ps.length = m.Inputs.length →
      List.zipWith (fun a v => self.paramAsString a.Type_ v) m.Inputs ps
        = rendered.map some →
      self.AnalyzeMethodCall lib abi data =
        some (m.Name,
          List.zipWith
            (fun a s => ({ Name := a.Name, Type_ := lib.TypeString a.Type_, Value := s } :
              ParamResult)) m.Inputs rendered,
          none) ∧
      (List.zipWith
        (fun a s => ({ Name := a.Name, Type_ := lib.TypeString a.Type_, Value := s } :
          ParamResult)) m.Inputs rendered).length = m.Inputs.length) ∧
    (∀ e, lib.MethodById abi data = .error e →
      self.AnalyzeMethodCall lib abi data = some ("", [], some e)) ∧
    (∀ (m : Method) (e : String),
      lib.MethodById abi data = .ok m → 4 ≤ data.length →
      lib.UnpackValues m.Inputs (data.drop 4) = .error e →
      self.AnalyzeMethodCall lib abi data = some (m.Name, [], some e)) := by
  refine ⟨?_, ?_, ?_⟩
  · intro m ps rendered hm hlen hunpack hps hrender
    have hnot : ¬ data.length < 4 := by omega
    have hparams := paramResults_some self lib ps m.Inputs 0 [] ps rendered rfl hps hrender
    simp only [List.nil_append] at hparams
    refine ⟨?_, ?_⟩
    · simp only [TxAnalyzer.AnalyzeMethodCall, hm, hnot, if_false, hunpack, hparams]
    · have h1 : rendered.length = m.Inputs.length := by
        have := congrArg List.length hrender
        simp only [List.length_zipWith, List.length_map, hps, Nat.min_self] at this
        exact this.symm
      simp [List.length_zipWith, h1]
  · intro e hm
    simp only [TxAnalyzer.AnalyzeMethodCall, hm]
  · intro m e hm hlen hunpack
    have hnot : ¬ data.length < 4 := by omega
    simp only [TxAnalyzer.AnalyzeMethodCall, hm, hnot, if_false, hunpack]

/-- The call data of `submitTransaction` decodes to its three parameters. -/
theorem AnalyzeMethodCall_outcomes_example :
    plainAnalyzer.AnalyzeMethodCall sampleLibrary walletABI submitCallData =
      some ("submitTransaction",
        [⟨"destination", "address", "0x0707070707070707070707070707070707070707 - ()"⟩,
         ⟨"value", "uint256", "25 (0x19)"⟩, ⟨"data", "bytes", "0x0102030405"⟩],
        none) :=
  ((AnalyzeMethodCall_outcomes plainAnalyzer sampleLibrary walletABI submitCallData).1
    submitTransactionMethod
    [.address (List.replicate 20 7), .int 25, .bytes [1, 2, 3, 4, 5]]
    ["0x0707070707070707070707070707070707070707 - ()", "25 (0x19)", "0x0102030405"]
    rfl (by decide) rfl (by decide) (by decide)).1

/-- Claim C13: the code at the failing input. The ABI has the method
`setCallback(function cb)`; the selector resolves and the remaining bytes unpack, to the
`[24]byte` that a function-typed input unpacks to. The function branch of
`nonArrayParamAsString` asserts `value.([]byte)`, which panics on a byte array, so
`AnalyzeMethodCall` panics instead of returning the method name and one entry for `cb`. -/
theorem C13_function_input_panics :
    sampleLibrary.MethodById callbackABI setCallbackCallData =
      .ok ⟨"setCallback", [⟨"cb", .FunctionTy, false⟩]⟩ ∧
    sampleLibrary.UnpackValues [⟨"cb", .FunctionTy, false⟩] (setCallbackCallData.drop 4) =
      .ok [.fixedBytes (List.replicate 24 5)] ∧
    plainAnalyzer.nonArrayParamAsString .FunctionTy (.fixedBytes (List.replicate 24 5)) =
      none ∧
    plainAnalyzer.AnalyzeMethodCall sampleLibrary callbackABI setCallbackCallData = none :=
  ⟨rfl, rfl, by decide, by decide⟩

/-! ## Orchestration and safety: claims C14, C16, C17, C18 -/

/-- Claim C14: the code at the failing input. The transaction calls `submitTransaction` on
a wallet and its receipt has one log of an unknown event. `AnalyzeLog` reports
"no event with id: 0x010203" for the log and the result has one log entry, but retrieving the
ABI of the destination fails and `setGnosisMultisigInitData` assigns its own message to
`result.Error`: the final error text does not contain the message of the log. The same log
under a call of `ping()` leaves the message of the log in the error text. -/
theorem C14_log_error_overwritten :
    plainAnalyzer.AnalyzeLog sampleLibrary walletABI unknownLog =
      some ({ Name := "", Topics := [], Data := [] }, some "no event with id: 0x010203") ∧
    (plainAnalyzer.analyzeContractTx sampleLibrary offlineReader
      ⟨"done", some walletTx, some [], some ⟨[], 1, [unknownLog]⟩⟩ walletABI NewTxResult).map
        (fun r => (r.Method, r.Logs, r.Error)) =
      some ("submitTransaction", [{ Name := "", Topics := [], Data := [] }],
        "Cannot get abi of the contract: dial tcp: no route to host") ∧
    ¬ ("no event with id: 0x010203".toList <:+:
        "Cannot get abi of the contract: dial tcp: no route to host".toList) ∧
    (plainAnalyzer.analyzeContractTx sampleLibrary offlineReader
      ⟨"done", some pingTx, some [], some ⟨[], 1, [unknownLog]⟩⟩ walletABI NewTxResult).map
        (fun r => (r.Method, r.Logs, r.Error)) =
      some ("ping", [{ Name := "", Topics := [], Data := [] }],
        "no event with id: 0x010203") := by
  decide

/-- Claim C16: the code at the failing inputs. With a fourth input after the three expected
names `isGnosisMultisig` indexes the expected names out of range. For `submitTransaction()`
without inputs it answers true and `setGnosisMultisigInitData` panics on `params[0]`, so
`analyzeContractTx` panics. With the three expected names at other types it answers true and
the type assertion on `params[0]` panics. -/
theorem C16_recognizer_path_panics :
    isGnosisMultisig
      ⟨"submitTransaction",
        [⟨"destination", .AddressTy, false⟩, ⟨"value", .UintTy 256, false⟩,
         ⟨"data", .BytesTy, false⟩, ⟨"nonce", .UintTy 256, false⟩]⟩
      [.address (List.replicate 20 0), .int 0, .bytes [], .int 7] = none ∧
    isGnosisMultisig ⟨"submitTransaction", []⟩ [] = some true ∧
    plainAnalyzer.setGnosisMultisigInitData sampleLibrary offlineReader [] []
      { NewTxResult with
        GnosisInit := some { Contract := ⟨"", ""⟩, Method := "", Params := [] } } = none ∧
    plainAnalyzer.analyzeContractTx sampleLibrary offlineReader
      ⟨"done", some { walletTx with Data := [115, 117, 98, 109] }, some [],
        some ⟨[], 1, []⟩⟩ bareSubmitABI NewTxResult = none ∧
    isGnosisMultisig
      ⟨"submitTransaction",
        [⟨"destination", .UintTy 256, false⟩, ⟨"value", .UintTy 256, false⟩,
         ⟨"data", .UintTy 256, false⟩]⟩
      [.int 1, .int 2, .int 3] = some true ∧
    plainAnalyzer.setGnosisMultisigInitData sampleLibrary offlineReader
      [⟨"destination", .UintTy 256, false⟩, ⟨"value", .UintTy 256, false⟩,
       ⟨"data", .UintTy 256, false⟩]
      [.int 1, .int 2, .int 3]
      { NewTxResult with
        GnosisInit := some { Contract := ⟨"", ""⟩, Method := "", Params := [] } } = none := by
  decide

/-- Claim C17: the code at the failing inputs. On a log with an empty topic list `AnalyzeLog`
panics at `l.Topics[0]`; on a `Transfer` log that carries three topics after the first, while
the event of the ABI has two indexed inputs, it panics at `iArgs[2]`. -/
theorem C17_analyze_log_panics :
    plainAnalyzer.AnalyzeLog sampleLibrary walletABI ⟨[], [9]⟩ = none ∧
    (SplitEventArguments transferEvent.Inputs).1.length = 2 ∧
    plainAnalyzer.AnalyzeLog sampleLibrary walletABI ⟨[transferID, [1], [2], [3]], []⟩ = none ∧
    AnalyzeLog.topics (SplitEventArguments transferEvent.Inputs).1 [[1], [2], [3]] 0 [] =
      none := by
  decide

/-- Claim C18: the code at the failing inputs. When the lookup succeeds with no transaction
(status "notfound", nil error) `Analyze` dereferences the absent transaction at
`txinfo.Tx.To()` and `AnalyzeOffline` at `txinfo.Tx.Hash()`; for a mined contract creation
(no destination) `Analyze` panics at `txinfo.Tx.To().Hex()` and `AnalyzeOffline` in
`setBasicTxInfo`. -/
theorem C18_analyze_panics_on_absent_tx :
    TxInfoFromHash [⟨"a", (none, false), none⟩] [] =
      ({ Status := "notfound", Tx := none, InternalTxs := none, Receipt := none }, none) ∧
    plainAnalyzer.Analyze sampleLibrary offlineReader [⟨"a", (none, false), none⟩] [] [] =
      none ∧
    plainAnalyzer.AnalyzeOffline sampleLibrary offlineReader
      { Status := "notfound", Tx := none, InternalTxs := none, Receipt := none } none false =
      none ∧
    TxInfoFromHash [⟨"a", (some creationTx, false), none⟩]
        [⟨"a", some ⟨[], 1, []⟩, none⟩] =
      ({ Status := "done", Tx := some creationTx, InternalTxs := some [],
         Receipt := some ⟨[], 1, []⟩ }, none) ∧
    plainAnalyzer.Analyze sampleLibrary offlineReader
      [⟨"a", (some creationTx, false), none⟩] [⟨"a", some ⟨[], 1, []⟩, none⟩]
      [⟨"a", [], none⟩] = none ∧
    plainAnalyzer.AnalyzeOffline sampleLibrary offlineReader
      { Status := "done", Tx := some creationTx, InternalTxs := some [],
        Receipt := some ⟨[], 1, []⟩ } none false = none := by
  decide

end EthUtils
